import Mathlib

/-!
Verification development for the Last-Vector survival-arena simulation engine
(C++ sources under src/cpp).  The engine is shallowly embedded: IEEE-754
float arithmetic is modelled by exact rational arithmetic (every ℚ value is
finite, so the engine's non-finite-value sanitization reduces to clamping),
machine integers by ℤ/ℕ, and the seeded mersenne-twister RNG by an abstract
stream of draws in [0, 1) consumed in program order.  `std::sqrt`, `std::cos`
and `std::sin` are modelled by concrete computable rational stand-ins; the
theorems below do not depend on their values (`sqrtQ` is exact on perfect
squares, which is what the concrete counterexample states exercise).
-/

namespace LastVector

/-- Newton iteration for the integer square root, with explicit fuel (the
guess strictly decreases, so `fuel` iterations reach the fixed point -- the
floor of the square root -- whenever `fuel` bounds the iteration count;
128 iterations cover every input below 2^128). -/
def isqrtIter : ℕ → ℕ → ℕ → ℕ
  | 0, _, guess => guess
  | fuel + 1, n, guess =>
    let next := (guess + n / guess) / 2
    if next < guess then isqrtIter fuel n next else guess

/-- Rational stand-in for `std::sqrt`: exact on squares of rationals in lowest
terms, an integer-sqrt based approximation elsewhere.  Nonpositive inputs map
to 0 (the engine never takes the square root of a negative number). -/
def sqrtQ (q : ℚ) : ℚ :=
  if q ≤ 0 then 0
  else
    let m := q.num.toNat * q.den
    (isqrtIter 128 m (m / 2 + 1) : ℚ) / (q.den : ℚ)

/-- Deterministic rational stand-in for `std::cos` (truncated Taylor series).
No claim settled in this file depends on its values. -/
def cosQ (x : ℚ) : ℚ := 1 - x ^ 2 / 2 + x ^ 4 / 24 - x ^ 6 / 720

/-- Deterministic rational stand-in for `std::sin` (truncated Taylor series).
No claim settled in this file depends on its values. -/
def sinQ (x : ℚ) : ℚ := x - x ^ 3 / 6 + x ^ 5 / 120

/-- `lv::Vec2` (state.hpp). -/
structure Vec2 where
  x : ℚ
  y : ℚ
deriving DecidableEq, Repr

/-- `lv::Obstacle` (state.hpp): static axis-aligned rectangle. -/
structure Obstacle where
  x : ℚ
  y : ℚ
  w : ℚ
  h : ℚ
deriving DecidableEq, Repr

-- Arena constants from config.hpp.
def kFixedDt : ℚ := 1 / 60
def kArenaWidth : ℚ := 4200
def kArenaHeight : ℚ := 2800
def kPlayerSpawnX : ℚ := kArenaWidth * (1 / 2)
def kPlayerSpawnY : ℚ := kArenaHeight * (1 / 2)
def kZombieObsCount : ℕ := 8
def kRayCount : ℕ := 16
def kEpisodeLimitSeconds : ℚ := 180
def kPlayerRadius : ℚ := 10
def kZombieRadius : ℚ := 10

-- Anonymous-namespace constants from sim.cpp.
def kZombieSeparationRadius : ℚ := 22
def kSprintSpeedMultiplier : ℚ := 7 / 4
def kMaxSeparationCorrectionPerTick : ℚ := 4

/-- `length` (sim.cpp anonymous namespace). -/
def vlength (v : Vec2) : ℚ := sqrtQ (v.x * v.x + v.y * v.y)

/-- `normalize` (sim.cpp anonymous namespace). -/
def normalize (v : Vec2) : Vec2 :=
  let l := vlength v
  if l ≤ 1 / 1000000 then ⟨0, 0⟩ else ⟨v.x / l, v.y / l⟩

/-- `fallback_normal_for_pair` (sim.cpp): positionally deterministic tie-break
direction derived from a hash of the two entity indices. -/
def fallback_normal_for_pair (a b : ℕ) : Vec2 :=
  let bits : ℕ := ((a * 73856093) ^^^ (b * 19349663)) % 2 ^ 32
  let angle : ℚ := ((bits % 1024 : ℕ) : ℚ) * (628318530718 / 100000000000 / 1024)
  ⟨cosQ angle, sinQ angle⟩

/-- `clamp_position_in_bounds` (sim.cpp). -/
def clamp_position_in_bounds (pos : Vec2) (radius : ℚ) : Vec2 :=
  ⟨max radius (min pos.x (kArenaWidth - radius)),
   max radius (min pos.y (kArenaHeight - radius))⟩

/-- `sanitize_position` (sim.cpp).  In the rational model every coordinate is
finite, so the non-finite fallback branch of the C++ code is never taken and
sanitization reduces to the bounds clamp. -/
def sanitize_position (pos : Vec2) (_fallback : Vec2) (radius : ℚ) : Vec2 :=
  clamp_position_in_bounds pos radius

-- Collision module (collision.cpp).

def kEpsilonColl : ℚ := 1 / 1000000

/-- `clamp` (collision.cpp). -/
def clampQ (x lo hi : ℚ) : ℚ := max lo (min x hi)

/-- `point_inside_aabb` (collision.cpp anonymous namespace). -/
def point_inside_aabb (p : Vec2) (box : Obstacle) : Prop :=
  p.x ≥ box.x ∧ p.x ≤ box.x + box.w ∧ p.y ≥ box.y ∧ p.y ≤ box.y + box.h

instance (p : Vec2) (box : Obstacle) : Decidable (point_inside_aabb p box) := by
  unfold point_inside_aabb; infer_instance

/-- `closest_point_on_aabb` (collision.cpp). -/
def closest_point_on_aabb (point : Vec2) (box : Obstacle) : Vec2 :=
  ⟨clampQ point.x box.x (box.x + box.w), clampQ point.y box.y (box.y + box.h)⟩

/-- `circle_vs_aabb_resolve` (collision.cpp): pushes the circle centre out of
the box; returns the corrected centre (the C++ bool result is unused by the
simulator). -/
def circle_vs_aabb_resolve (center : Vec2) (radius : ℚ) (box : Obstacle) : Vec2 :=
  let closest := closest_point_on_aabb center box
  let dx := center.x - closest.x
  let dy := center.y - closest.y
  let dist_sq := dx * dx + dy * dy
  let radius_sq := radius * radius
  if dist_sq < radius_sq ∧ dist_sq > kEpsilonColl then
    let dist := sqrtQ dist_sq
    let penetration := radius - dist
    let inv_dist := 1 / dist
    ⟨center.x + dx * inv_dist * penetration, center.y + dy * inv_dist * penetration⟩
  else if point_inside_aabb center box ∨ dist_sq ≤ kEpsilonColl then
    let left := center.x - box.x
    let right := box.x + box.w - center.x
    let top := center.y - box.y
    let bottom := box.y + box.h - center.y
    let min_push := min (min left right) (min top bottom)
    if min_push = left then ⟨box.x - radius, center.y⟩
    else if min_push = right then ⟨box.x + box.w + radius, center.y⟩
    else if min_push = top then ⟨center.x, box.y - radius⟩
    else ⟨center.x, box.y + box.h + radius⟩
  else center

/-- `circle_vs_aabb_overlap` (collision.cpp). -/
def circle_vs_aabb_overlap (center : Vec2) (radius : ℚ) (box : Obstacle) : Bool :=
  let closest := closest_point_on_aabb center box
  let dx := center.x - closest.x
  let dy := center.y - closest.y
  decide (dx * dx + dy * dy ≤ radius * radius)

-- Upgrade system (upgrade.hpp, upgrades.cpp).

/-- `lv::UpgradeId` (upgrade.hpp), the eight concrete upgrades. -/
inductive UpgradeId where
  | RingOfFire
  | BigShot
  | PiercingRounds
  | FrostRounds
  | FastHands
  | ExtendedMag
  | Cardio
  | SecondWind
deriving DecidableEq, Repr

/-- `lv::UpgradeDef` (upgrade.hpp). -/
structure UpgradeDef where
  id : UpgradeId
  name : String
  unique : Bool
  max_stacks : ℤ
deriving DecidableEq, Repr

/-- `build_upgrade_catalog` (upgrades.cpp): the eight static catalog entries,
in enum order. -/
def build_upgrade_catalog : List UpgradeDef :=
  [ ⟨.RingOfFire, "Ring of Fire", false, 5⟩,
    ⟨.BigShot, "Big Shot", false, 3⟩,
    ⟨.PiercingRounds, "Piercing Rounds", false, 3⟩,
    ⟨.FrostRounds, "Frost Rounds", false, 4⟩,
    ⟨.FastHands, "Fast Hands", false, 4⟩,
    ⟨.ExtendedMag, "Extended Mag", false, 5⟩,
    ⟨.Cardio, "Cardio", false, 5⟩,
    ⟨.SecondWind, "Second Wind", true, 1⟩ ]

/-- Index of an upgrade id, mirroring `static_cast<size_t>(id)`. -/
def UpgradeId.toIdx : UpgradeId → ℕ
  | .RingOfFire => 0
  | .BigShot => 1
  | .PiercingRounds => 2
  | .FrostRounds => 3
  | .FastHands => 4
  | .ExtendedMag => 5
  | .Cardio => 6
  | .SecondWind => 7

/-- Inverse of `UpgradeId.toIdx`, mirroring `static_cast<UpgradeId>(i)` on the
valid range 0..7 (out-of-range casts never occur for valid RNG streams; the
fallback value is arbitrary). -/
def upgradeIdOfIdx (i : ℤ) : UpgradeId :=
  if i = 0 then .RingOfFire
  else if i = 1 then .BigShot
  else if i = 2 then .PiercingRounds
  else if i = 3 then .FrostRounds
  else if i = 4 then .FastHands
  else if i = 5 then .ExtendedMag
  else if i = 6 then .Cardio
  else .SecondWind

/-- The per-id `max_stacks` read `catalog[idx].max_stacks` performed by
`apply_upgrade` (upgrades.cpp); the catalog list is in enum order. -/
def maxStacksOf (id : UpgradeId) : ℤ :=
  ((build_upgrade_catalog.get? id.toIdx).map (·.max_stacks)).getD 0

/-- The per-episode stack levels, one `int` per catalog entry
(`std::array<int, 8> levels` in upgrade.hpp), plus the one-shot revival flag. -/
structure UpgradeState where
  ringOfFire : ℤ := 0
  bigShot : ℤ := 0
  piercingRounds : ℤ := 0
  frostRounds : ℤ := 0
  fastHands : ℤ := 0
  extendedMag : ℤ := 0
  cardio : ℤ := 0
  secondWind : ℤ := 0
  second_wind_used : Bool := false
deriving DecidableEq, Repr

/-- Read `state.levels[static_cast<size_t>(id)]`. -/
def UpgradeState.level (st : UpgradeState) : UpgradeId → ℤ
  | .RingOfFire => st.ringOfFire
  | .BigShot => st.bigShot
  | .PiercingRounds => st.piercingRounds
  | .FrostRounds => st.frostRounds
  | .FastHands => st.fastHands
  | .ExtendedMag => st.extendedMag
  | .Cardio => st.cardio
  | .SecondWind => st.secondWind

/-- Write `state.levels[static_cast<size_t>(id)] = v`. -/
def UpgradeState.setLevel (st : UpgradeState) (id : UpgradeId) (v : ℤ) : UpgradeState :=
  match id with
  | .RingOfFire => { st with ringOfFire := v }
  | .BigShot => { st with bigShot := v }
  | .PiercingRounds => { st with piercingRounds := v }
  | .FrostRounds => { st with frostRounds := v }
  | .FastHands => { st with fastHands := v }
  | .ExtendedMag => { st with extendedMag := v }
  | .Cardio => { st with cardio := v }
  | .SecondWind => { st with secondWind := v }

/-- `apply_upgrade` (upgrades.cpp): increment the stack level for `id` unless
the catalog's max-stack limit is already reached; no-op past the cap. -/
def apply_upgrade (st : UpgradeState) (id : UpgradeId) : UpgradeState :=
  if st.level id ≥ maxStacksOf id then st
  else st.setLevel id (st.level id + 1)

-- World state (state.hpp).

/-- `lv::PlayState` (config.hpp). -/
inductive PlayState where
  | Playing
  | ChoosingUpgrade
  | Dead
deriving DecidableEq, Repr

/-- `lv::Player` (state.hpp) with its member initializers. -/
structure Player where
  pos : Vec2 := ⟨kPlayerSpawnX, kPlayerSpawnY⟩
  vel : Vec2 := ⟨0, 0⟩
  health : ℚ := 100
  max_health : ℚ := 100
  stamina : ℚ := 100
  max_stamina : ℚ := 100
  mag : ℤ := 12
  mag_capacity : ℤ := 12
  reserve : ℤ := 120
  shoot_cd : ℚ := 0
  reload_timer : ℚ := 0
  invuln_timer : ℚ := 0
deriving DecidableEq, Repr

/-- `lv::Zombie` (state.hpp). -/
structure Zombie where
  pos : Vec2 := ⟨0, 0⟩
  vel : Vec2 := ⟨0, 0⟩
  hp : ℚ := 30
  slow_timer : ℚ := 0
  touch_cd : ℚ := 0
deriving DecidableEq, Repr

/-- `lv::Bullet` (state.hpp). -/
structure Bullet where
  pos : Vec2 := ⟨0, 0⟩
  vel : Vec2 := ⟨0, 0⟩
  radius : ℚ := 4
  damage : ℚ := 22
  pierce : ℤ := 0
deriving DecidableEq, Repr

/-- `lv::RuntimeStats`.  state.hpp declares kills, damage_taken, shots_fired
and shots_hit; sim.cpp additionally reads and writes `stats.damage_dealt`
(update_bullets, compute_reward, step), whose declaration is absent from
src/ -- it is included here with the semantics its uses in sim.cpp and the
spec (§3 RuntimeStats) determine. -/
structure RuntimeStats where
  kills : ℤ := 0
  damage_taken : ℚ := 0
  shots_fired : ℤ := 0
  shots_hit : ℤ := 0
  damage_dealt : ℚ := 0
deriving DecidableEq, Repr

/-- `lv::GameState` (state.hpp) with its member initializers. -/
structure GameState where
  seed : ℕ := 0
  tick : ℕ := 0
  episode_time_s : ℚ := 0
  play_state : PlayState := .Playing
  difficulty_scalar : ℚ := 0
  player : Player := {}
  zombies : List Zombie := []
  bullets : List Bullet := []
  obstacles : List Obstacle := []
  upgrades : UpgradeState := {}
  upgrade_offer : UpgradeId × UpgradeId × UpgradeId := (.RingOfFire, .BigShot, .PiercingRounds)
  spawn_budget : ℚ := 0
  upgrade_clock : ℚ := 0
  stats : RuntimeStats := {}
deriving DecidableEq, Repr

/-- `lv::Action` (action.hpp) with its member initializers. -/
structure Action where
  move_x : ℚ := 0
  move_y : ℚ := 0
  aim_x : ℚ := 1
  aim_y : ℚ := 0
  shoot : Bool := false
  sprint : Bool := false
  reload : Bool := false
  upgrade_choice : ℤ := -1
deriving DecidableEq, Repr

/-- The observable part of `lv::StepResult` (env_api.hpp): observation,
reward and the two episode-end flags (the diagnostic info bundle is omitted,
as no claim refers to it). -/
structure StepResult where
  observation : List ℚ
  reward : ℚ
  terminated : Bool
  truncated : Bool
deriving DecidableEq, Repr

/-- The full simulator state: the world state plus the two pieces of
`lv::Simulator` state outside `GameState` -- the RNG position (modelling
`DeterministicRng`, rng.hpp) and the invalid-upgrade-choice tick counter
`upgrade_pause_ticks_` (used by sim.cpp; its declaration is absent from
src/).  `crossed` is a ghost observer, not present in the engine: it counts
the zombies whose hit points crossed from positive to ≤ 0, at the moment the
damage is applied, and influences no other field. -/
structure SimState where
  game : GameState
  rngIdx : ℕ
  pause : ℕ
  crossed : ℕ
deriving DecidableEq, Repr

-- Deterministic RNG (rng.hpp), modelled as a stream of draws.

/-- A stream of raw RNG draws.  `g n` models the n-th variate produced by the
seeded `std::mt19937_64` engine; a conforming standard-library distribution
turns it into a value in the requested range, which is modelled by requiring
the raw draws to lie in [0, 1). -/
def ValidStream (g : ℕ → ℚ) : Prop := ∀ n, 0 ≤ g n ∧ g n < 1

/-- `DeterministicRng::uniform(lo, hi)`: the draw consumes one stream
position and lands in [lo, hi) for valid streams. -/
def rngUniform (g : ℕ → ℚ) (idx : ℕ) (lo hi : ℚ) : ℚ × ℕ :=
  (lo + (hi - lo) * g idx, idx + 1)

/-- `DeterministicRng::uniform_int(lo, hi)` (inclusive bounds): the draw
consumes one stream position and lands in [lo, hi] for valid streams. -/
def rngUniformInt (g : ℕ → ℚ) (idx : ℕ) (lo hi : ℤ) : ℤ × ℕ :=
  (lo + ⌊g idx * ((hi - lo + 1 : ℤ) : ℚ)⌋, idx + 1)

-- Simulator (sim.cpp).

/-- Modelled from the spec: sim.cpp reads the constant
`kUpgradeChoiceTimeoutTicks` whose definition is absent from src/; the spec
(§4.4 step 2, §9a) only requires a bounded timeout of consecutive invalid
upgrade-choice ticks after which the first offered card is force-applied.
The bound is modelled as 60 ticks; the theorems below depend only on the
force-apply firing at some finite positive tick count. -/
def kUpgradeChoiceTimeoutTicks : ℕ := 60

/-- `Simulator::init_obstacles`: the twelve static arena rectangles. -/
def init_obstacles : List Obstacle :=
  let sx := kArenaWidth / 1400
  let sy := kArenaHeight / 900
  [ ⟨220 * sx, 150 * sy, 180 * sx, 60 * sy⟩,
    ⟨470 * sx, 260 * sy, 140 * sx, 50 * sy⟩,
    ⟨640 * sx, 90 * sy, 80 * sx, 220 * sy⟩,
    ⟨920 * sx, 170 * sy, 150 * sx, 60 * sy⟩,
    ⟨1080 * sx, 330 * sy, 120 * sx, 120 * sy⟩,
    ⟨180 * sx, 420 * sy, 200 * sx, 70 * sy⟩,
    ⟨440 * sx, 520 * sy, 60 * sx, 200 * sy⟩,
    ⟨620 * sx, 440 * sy, 200 * sx, 80 * sy⟩,
    ⟨860 * sx, 560 * sy, 180 * sx, 60 * sy⟩,
    ⟨1140 * sx, 520 * sy, 80 * sx, 200 * sy⟩,
    ⟨250 * sx, 700 * sy, 220 * sx, 70 * sy⟩,
    ⟨560 * sx, 760 * sy, 140 * sx, 60 * sy⟩ ]

/-- `Simulator::roll_upgrade_offer`: three uniform draws in [0, Count-1]. -/
def roll_upgrade_offer (g : ℕ → ℚ) (idx : ℕ) :
    (UpgradeId × UpgradeId × UpgradeId) × ℕ :=
  let (a, idx) := rngUniformInt g idx 0 7
  let (b, idx) := rngUniformInt g idx 0 7
  let (c, idx) := rngUniformInt g idx 0 7
  ((upgradeIdOfIdx a, upgradeIdOfIdx b, upgradeIdOfIdx c), idx)

/-- `Simulator::spawn_zombie`: a random point on a random arena edge, hit
points scaled by difficulty. -/
def spawn_zombie (g : ℕ → ℚ) (idx : ℕ) (difficulty : ℚ) : Zombie × ℕ :=
  let (edge, idx) := rngUniformInt g idx 0 3
  let (pos, idx) :=
    if edge = 0 then
      let (y, idx) := rngUniform g idx 0 kArenaHeight; ((⟨0, y⟩ : Vec2), idx)
    else if edge = 1 then
      let (y, idx) := rngUniform g idx 0 kArenaHeight; ((⟨kArenaWidth, y⟩ : Vec2), idx)
    else if edge = 2 then
      let (x, idx) := rngUniform g idx 0 kArenaWidth; ((⟨x, 0⟩ : Vec2), idx)
    else if edge = 3 then
      let (x, idx) := rngUniform g idx 0 kArenaWidth; ((⟨x, kArenaHeight⟩ : Vec2), idx)
    else ((⟨0, 0⟩ : Vec2), idx)
  ({ pos := pos, hp := 26 + difficulty * 3 }, idx)

/-- `Simulator::update_player` (sim.cpp lines 100-170), in data-flow form:
every branch of the C++ control flow is reproduced, each mutated field bound
once. -/
def update_player (a : Action) (s : GameState) : GameState :=
  let p := s.player
  let shoot_cd0 := max 0 (p.shoot_cd - kFixedDt)
  let reload_timer0 := max 0 (p.reload_timer - kFixedDt)
  let invuln_timer0 := max 0 (p.invuln_timer - kFixedDt)
  let cardio := s.upgrades.cardio
  let max_stamina1 : ℚ := 100 + (cardio : ℚ) * 12
  let sprintCond := a.sprint = true ∧ p.stamina > 1
  let sprint_mul : ℚ := if sprintCond then kSprintSpeedMultiplier else 1
  let stamina1 : ℚ :=
    if sprintCond then max 0 (p.stamina - (22 - (cardio : ℚ) * 2) * kFixedDt)
    else min max_stamina1 (p.stamina + (14 + (cardio : ℚ) * (5 / 2)) * kFixedDt)
  let wish : Vec2 := ⟨a.move_x, a.move_y⟩
  let wl := vlength wish
  let wish := if wl > 1 then (⟨wish.x / wl, wish.y / wl⟩ : Vec2) else wish
  let accel := 930 * sprint_mul
  let friction : ℚ := 15 / 2
  let vel1 : Vec2 := ⟨(p.vel.x + wish.x * accel * kFixedDt) * (1 - friction * kFixedDt),
                      (p.vel.y + wish.y * accel * kFixedDt) * (1 - friction * kFixedDt)⟩
  let posA : Vec2 := ⟨p.pos.x + vel1.x * kFixedDt, p.pos.y + vel1.y * kFixedDt⟩
  let posB := s.obstacles.foldl (fun c o => circle_vs_aabb_resolve c kPlayerRadius o) posA
  let pos1 := sanitize_position posB ⟨kPlayerSpawnX, kPlayerSpawnY⟩ kPlayerRadius
  let ext_mag := s.upgrades.extendedMag
  let mag_capacity1 : ℤ := 12 + ext_mag * 3
  let fast_hands := s.upgrades.fastHands
  let reload_time : ℚ := max (7 / 20) (6 / 5 - (fast_hands : ℚ) * (3 / 20))
  let reload_timer1 :=
    if a.reload = true ∧ reload_timer0 ≤ 0 ∧ p.mag < mag_capacity1 ∧ p.reserve > 0
    then reload_time else reload_timer0
  let moved : ℤ :=
    if reload_timer1 ≤ 0 ∧ p.mag < mag_capacity1 ∧ p.reserve > 0
    then min (mag_capacity1 - p.mag) p.reserve else 0
  let mag1 := p.mag + moved
  let reserve1 := p.reserve - moved
  let shootCond := a.shoot = true ∧ shoot_cd0 ≤ 0 ∧ reload_timer1 ≤ 0 ∧ mag1 > 0
  let big_shot := s.upgrades.bigShot
  let pierce := s.upgrades.piercingRounds
  let dir0 := normalize ⟨a.aim_x, a.aim_y⟩
  let dir := if vlength dir0 < 1 / 10 then (⟨1, 0⟩ : Vec2) else dir0
  let newBullet : Bullet :=
    { pos := pos1, vel := ⟨dir.x * 760, dir.y * 760⟩,
      radius := 4 + (big_shot : ℚ), damage := 22 + (big_shot : ℚ) * 9, pierce := pierce }
  let pOut : Player :=
    { pos := pos1, vel := vel1, health := p.health, max_health := p.max_health,
      stamina := stamina1, max_stamina := max_stamina1,
      mag := if shootCond then mag1 - 1 else mag1,
      mag_capacity := mag_capacity1, reserve := reserve1,
      shoot_cd := if shootCond then 17 / 100 + (big_shot : ℚ) * (6 / 100) else shoot_cd0,
      reload_timer := reload_timer1, invuln_timer := invuln_timer0 }
  { s with player := pOut,
           bullets := if shootCond then s.bullets ++ [newBullet] else s.bullets,
           stats := if shootCond
                    then { s.stats with shots_fired := s.stats.shots_fired + 1 }
                    else s.stats }

/-- First loop of `Simulator::update_zombies`: timer decay, seek the player,
integrate, sanitize. -/
def zombie_move (ppos : Vec2) (difficulty : ℚ) (z : Zombie) : Zombie :=
  let slow_timer := max 0 (z.slow_timer - kFixedDt)
  let touch_cd := max 0 (z.touch_cd - kFixedDt)
  let dir := normalize ⟨ppos.x - z.pos.x, ppos.y - z.pos.y⟩
  let speed0 : ℚ := 155 + difficulty * 16
  let speed := if slow_timer > 0 then speed0 * (62 / 100) else speed0
  let vel : Vec2 := ⟨dir.x * speed, dir.y * speed⟩
  let pos : Vec2 := ⟨z.pos.x + vel.x * kFixedDt, z.pos.y + vel.y * kFixedDt⟩
  { z with slow_timer := slow_timer, touch_cd := touch_cd, vel := vel,
           pos := sanitize_position pos ppos kZombieRadius }

/-- One zombie-zombie separation pass for the index pair `(i, j)` (sim.cpp
lines 188-211). -/
def pair_separation (ppos : Vec2) (zs : List Zombie) (ij : ℕ × ℕ) : List Zombie :=
  match zs.get? ij.1, zs.get? ij.2 with
  | some zi, some zj =>
    let d : Vec2 := ⟨zj.pos.x - zi.pos.x, zj.pos.y - zi.pos.y⟩
    let l0 := vlength d
    let n : Vec2 := if l0 > 1 / 1000000 then ⟨d.x / l0, d.y / l0⟩
                    else fallback_normal_for_pair ij.1 ij.2
    let l : ℚ := if l0 > 1 / 1000000 then l0 else 0
    let push : ℚ := if l < kZombieSeparationRadius then
        min ((1 / 2) * (kZombieSeparationRadius - l)) kMaxSeparationCorrectionPerTick
      else 0
    let ziPos : Vec2 := ⟨zi.pos.x - n.x * push, zi.pos.y - n.y * push⟩
    let zjPos : Vec2 := ⟨zj.pos.x + n.x * push, zj.pos.y + n.y * push⟩
    let zi2 : Zombie := { zi with pos := sanitize_position ziPos ppos kZombieRadius }
    let zj2 : Zombie := { zj with pos := sanitize_position zjPos ppos kZombieRadius }
    (zs.set ij.1 zi2).set ij.2 zj2
  | _, _ => zs

/-- The ascending index pairs (i, j), i < j < n, in C++ loop order. -/
def pairIndices (n : ℕ) : List (ℕ × ℕ) :=
  (List.range n).foldr
    (fun i acc => (((List.range n).drop (i + 1)).map (fun j => (i, j))) ++ acc) []

/-- One zombie-player separation pass for zombie index `i` (sim.cpp lines
214-239); carries the evolving zombie list and player position. -/
def player_separation (st : List Zombie × Vec2) (i : ℕ) : List Zombie × Vec2 :=
  let zs := st.1
  let ppos := st.2
  match zs.get? i with
  | some z =>
    let d : Vec2 := ⟨z.pos.x - ppos.x, z.pos.y - ppos.y⟩
    let l0 := vlength d
    let min_dist := kPlayerRadius + kZombieRadius
    if l0 < min_dist then
      let nl : Vec2 × ℚ := if l0 > 1 / 1000000 then (⟨d.x / l0, d.y / l0⟩, l0)
                           else (fallback_normal_for_pair i (zs.length + 1), 0)
      let n := nl.1
      let penetration := min_dist - nl.2
      let z_push := min ((9 / 10) * penetration) kMaxSeparationCorrectionPerTick
      let p_push := min ((1 / 10) * penetration) (6 / 5)
      let ppos1 : Vec2 := ⟨ppos.x - n.x * p_push, ppos.y - n.y * p_push⟩
      let zPos : Vec2 := ⟨z.pos.x + n.x * z_push, z.pos.y + n.y * z_push⟩
      let z1 : Zombie := { z with pos := sanitize_position zPos ppos1 kZombieRadius }
      let ppos2 := sanitize_position ppos1 ⟨kPlayerSpawnX, kPlayerSpawnY⟩ kPlayerRadius
      (zs.set i z1, ppos2)
    else (zs, ppos)
  | none => (zs, ppos)

/-- One of the two `for (int it = 0; it < 2; ++it)` separation iterations. -/
def separation_iteration (st : List Zombie × Vec2) : List Zombie × Vec2 :=
  let zs := (pairIndices st.1.length).foldl (pair_separation st.2) st.1
  (List.range zs.length).foldl player_separation (zs, st.2)

/-- Final loop of `Simulator::update_zombies`: obstacle resolution then
sanitize, per zombie. -/
def zombie_obstacles (obstacles : List Obstacle) (ppos : Vec2) (z : Zombie) : Zombie :=
  let pos := obstacles.foldl (fun c o => circle_vs_aabb_resolve c kZombieRadius o) z.pos
  { z with pos := sanitize_position pos ppos kZombieRadius }

/-- `Simulator::update_zombies` (sim.cpp lines 172-249). -/
def update_zombies (s : GameState) : GameState :=
  let p := s.player
  let zs0 := s.zombies.map (zombie_move p.pos s.difficulty_scalar)
  let sep := separation_iteration (separation_iteration (zs0, p.pos))
  let zs1 := sep.1.map (zombie_obstacles s.obstacles sep.2)
  let ppos := sanitize_position sep.2 ⟨kPlayerSpawnX, kPlayerSpawnY⟩ kPlayerRadius
  { s with zombies := zs1, player := { p with pos := ppos } }

/-- Result of running one bullet down the zombie list (the inner `for (auto&
z : state_.zombies)` of `Simulator::update_bullets`): the updated zombies,
the updated bullet, the number of hits scored, the damage-dealt increment,
and the ghost count of zombies whose hit points crossed to ≤ 0. -/
structure HitOut where
  zombies : List Zombie
  bullet : Bullet
  hits : ℤ
  damage_dealt : ℚ
  crossed : ℕ
deriving Repr

/-- The bullet-vs-zombie contact loop (sim.cpp lines 268-282): each contact
applies damage, applies the frost slow, decrements pierce; when pierce drops
below zero the bullet is marked for removal (sentinel position) and the loop
breaks, leaving the remaining zombies untouched. -/
def bullet_zombie_loop (frost : ℤ) (b : Bullet) : List Zombie → HitOut
  | [] => ⟨[], b, 0, 0, 0⟩
  | z :: zs =>
    if vlength ⟨z.pos.x - b.pos.x, z.pos.y - b.pos.y⟩ ≤ 10 + b.radius then
      let damage_applied := min z.hp b.damage
      let z2 : Zombie :=
        { z with hp := z.hp - b.damage,
                 slow_timer := if frost > 0
                               then max z.slow_timer (2 / 5 + (3 / 10) * (frost : ℚ))
                               else z.slow_timer }
      let cross : ℕ := if z.hp > 0 ∧ z.hp - b.damage ≤ 0 then 1 else 0
      let b1 : Bullet := { b with pierce := b.pierce - 1 }
      if b1.pierce < 0 then
        ⟨z2 :: zs, { b1 with pos := ⟨-1000, -1000⟩ }, 1, max 0 damage_applied, cross⟩
      else
        let r := bullet_zombie_loop frost b1 zs
        ⟨z2 :: r.zombies, r.bullet, 1 + r.hits, max 0 damage_applied + r.damage_dealt,
         cross + r.crossed⟩
    else
      let r := bullet_zombie_loop frost b zs
      ⟨z :: r.zombies, r.bullet, r.hits, r.damage_dealt, r.crossed⟩

/-- Accumulator for the outer bullet loop of `Simulator::update_bullets`. -/
structure BulletPhase where
  zombies : List Zombie
  bullets : List Bullet
  hits : ℤ
  damage_dealt : ℚ
  crossed : ℕ
deriving Repr

/-- Process one bullet (sim.cpp lines 254-283): integrate, cull on obstacle
overlap (sentinel position), otherwise run the zombie contact loop. -/
def process_bullet (obstacles : List Obstacle) (frost : ℤ) (st : BulletPhase)
    (b : Bullet) : BulletPhase :=
  let b := { b with pos := (⟨b.pos.x + b.vel.x * kFixedDt, b.pos.y + b.vel.y * kFixedDt⟩ : Vec2) }
  if obstacles.any (fun o => circle_vs_aabb_overlap b.pos b.radius o) then
    { st with bullets := st.bullets ++ [{ b with pos := ⟨-1000, -1000⟩ }] }
  else
    let r := bullet_zombie_loop frost b st.zombies
    { zombies := r.zombies, bullets := st.bullets ++ [r.bullet],
      hits := st.hits + r.hits, damage_dealt := st.damage_dealt + r.damage_dealt,
      crossed := st.crossed + r.crossed }

/-- The cull predicate of the `remove_if` over bullets (sim.cpp lines
285-289): a bullet is removed when its position leaves the arena (the
sentinel (-1000, -1000) always satisfies this). -/
def bullet_culled (b : Bullet) : Bool :=
  decide (b.pos.x < 0 ∨ b.pos.y < 0 ∨ b.pos.x > kArenaWidth ∨ b.pos.y > kArenaHeight)

/-- `Simulator::update_bullets` (sim.cpp lines 251-295); also returns the
ghost hp-crossing count of this phase. -/
def update_bullets (s : GameState) : GameState × ℕ :=
  let frost := s.upgrades.frostRounds
  let r := s.bullets.foldl (process_bullet s.obstacles frost) ⟨s.zombies, [], 0, 0, 0⟩
  let bullets := r.bullets.filter (fun b => ¬ bullet_culled b)
  let prev := r.zombies.length
  let zombies := r.zombies.filter (fun z => decide (z.hp > 0))
  let kills_add : ℤ := ((prev - zombies.length : ℕ) : ℤ)
  ({ s with zombies := zombies, bullets := bullets,
            stats := { s.stats with
                       shots_hit := s.stats.shots_hit + r.hits,
                       damage_dealt := s.stats.damage_dealt + r.damage_dealt,
                       kills := s.stats.kills + kills_add } }, r.crossed)

/-- `Simulator::apply_ring_of_fire` (sim.cpp lines 297-306); also returns
the ghost hp-crossing count of this phase. -/
def apply_ring_of_fire (s : GameState) : GameState × ℕ :=
  let level := s.upgrades.ringOfFire
  if level ≤ 0 then (s, 0)
  else
    let radius : ℚ := 70 + (level : ℚ) * 16
    let dps : ℚ := 18 + (level : ℚ) * 7
    let inRange := fun (z : Zombie) =>
      vlength ⟨z.pos.x - s.player.pos.x, z.pos.y - s.player.pos.y⟩ < radius
    let zombies := s.zombies.map (fun z =>
      if inRange z then { z with hp := z.hp - dps * kFixedDt } else z)
    let crossed := s.zombies.countP (fun z =>
      decide (inRange z ∧ z.hp > 0 ∧ z.hp - dps * kFixedDt ≤ 0))
    ({ s with zombies := zombies }, crossed)

/-- The player-zombie contact loop inside `Simulator::step` (sim.cpp lines
367-374): returns the zombies (touch cooldowns re-armed on hit) and the
number of contact hits; each hit costs the player 10 health. -/
def contact_loop (ppos : Vec2) (invuln : ℚ) : List Zombie → List Zombie × ℕ
  | [] => ([], 0)
  | z :: zs =>
    let r := contact_loop ppos invuln zs
    if vlength ⟨z.pos.x - ppos.x, z.pos.y - ppos.y⟩ < kPlayerRadius + kZombieRadius ∧
       z.touch_cd ≤ 0 ∧ invuln ≤ 0 then
      ({ z with touch_cd := 3 / 2 } :: r.1, r.2 + 1)
    else (z :: r.1, r.2)

/-- The spawn `while` loop inside `Simulator::step` (sim.cpp lines 393-396):
one zombie per whole budget unit, capped by `max_alive`.  The fuel argument
is an upper bound on the iteration count (the budget drops by exactly one
per iteration, so `⌈budget⌉` iterations always suffice). -/
def spawn_loop (g : ℕ → ℚ) (max_alive : ℤ) (difficulty : ℚ) :
    ℕ → ℚ → List Zombie → ℕ → ℚ × List Zombie × ℕ
  | 0, budget, zs, idx => (budget, zs, idx)
  | fuel + 1, budget, zs, idx =>
    if budget > 1 ∧ (zs.length : ℤ) < max_alive then
      let r := spawn_zombie g idx difficulty
      spawn_loop g max_alive difficulty fuel (budget - 1) (zs ++ [r.1]) r.2
    else (budget, zs, idx)

/-- Index into the three-card offer: `state_.upgrade_offer[i]`. -/
def offerGet (o : UpgradeId × UpgradeId × UpgradeId) (i : ℤ) : UpgradeId :=
  if i = 0 then o.1 else if i = 1 then o.2.1 else o.2.2

/-- `Simulator::handle_upgrade_choice` (sim.cpp lines 308-327): a valid
choice (or the timeout expiring) applies the chosen (or first) offered card,
resumes play, resets the offer clock and pause counter, and rolls a fresh
offer; an invalid choice before the timeout only bumps the pause counter. -/
def handle_upgrade_choice (g : ℕ → ℚ) (a : Action) (s : SimState) : SimState :=
  if s.game.play_state ≠ PlayState.ChoosingUpgrade then s
  else
    let valid := 0 ≤ a.upgrade_choice ∧ a.upgrade_choice ≤ 2
    if ¬ valid ∧ s.pause + 1 < kUpgradeChoiceTimeoutTicks then
      { s with pause := s.pause + 1 }
    else
      let choice : ℤ := if valid then a.upgrade_choice else 0
      let chosen := offerGet s.game.upgrade_offer choice
      let ro := roll_upgrade_offer g s.rngIdx
      { game := { s.game with upgrades := apply_upgrade s.game.upgrades chosen,
                              play_state := PlayState.Playing,
                              upgrade_clock := 0,
                              upgrade_offer := ro.1 },
        rngIdx := ro.2, pause := 0, crossed := s.crossed }

/-- `Simulator::compute_reward` (sim.cpp lines 329-354). -/
def compute_reward (prev : RuntimeStats) (s : GameState) : ℚ :=
  let kills_delta := s.stats.kills - prev.kills
  let damage_taken_delta := s.stats.damage_taken - prev.damage_taken
  let shots_delta := s.stats.shots_fired - prev.shots_fired
  let hits_delta := s.stats.shots_hit - prev.shots_hit
  let damage_dealt_delta := s.stats.damage_dealt - prev.damage_dealt
  let reward : ℚ := 2 / 100 + (kills_delta : ℚ) * (145 / 100) + (hits_delta : ℚ) * (3 / 100)
                    + damage_dealt_delta * (2 / 1000) - damage_taken_delta * (5 / 100)
  let nearest := s.zombies.foldl
    (fun best z => min best (vlength ⟨z.pos.x - s.player.pos.x, z.pos.y - s.player.pos.y⟩)) 9999
  let reward := if nearest < 120 then reward - (120 - nearest) * (8 / 10000) else reward
  if shots_delta > 0 ∧ hits_delta = 0 then reward - (8 / 1000) * (shots_delta : ℚ) else reward

-- Observation encoder (observation.cpp).

def kRayRange : ℚ := 320

/-- `ray_aabb_t` (observation.cpp anonymous namespace). -/
def obs_ray_aabb_t (origin dir : Vec2) (o : Obstacle) : ℚ :=
  let eps : ℚ := 1 / 1000000
  if |dir.x| < eps ∧ (origin.x < o.x ∨ origin.x > o.x + o.w) then -1
  else
    let txy : ℚ × ℚ :=
      if |dir.x| < eps then (0, kRayRange)
      else
        let tx1 := (o.x - origin.x) / dir.x
        let tx2 := (o.x + o.w - origin.x) / dir.x
        (max 0 (min tx1 tx2), min kRayRange (max tx1 tx2))
    if |dir.y| < eps ∧ (origin.y < o.y ∨ origin.y > o.y + o.h) then -1
    else
      let txy2 : ℚ × ℚ :=
        if |dir.y| < eps then txy
        else
          let ty1 := (o.y - origin.y) / dir.y
          let ty2 := (o.y + o.h - origin.y) / dir.y
          (max txy.1 (min ty1 ty2), min txy.2 (max ty1 ty2))
      if txy2.2 < 0 ∨ txy2.1 > txy2.2 then -1 else txy2.1

/-- `ray_circle_t` (observation.cpp anonymous namespace). -/
def obs_ray_circle_t (origin dir center : Vec2) (radius : ℚ) : ℚ :=
  let oc : Vec2 := ⟨origin.x - center.x, origin.y - center.y⟩
  let b := 2 * (oc.x * dir.x + oc.y * dir.y)
  let c := oc.x * oc.x + oc.y * oc.y - radius * radius
  let disc := b * b - 4 * c
  if disc < 0 then -1
  else
    let sq := sqrtQ disc
    let t0 := (-b - sq) * (1 / 2)
    let t1 := (-b + sq) * (1 / 2)
    if t0 ≥ 0 then t0 else if t1 ≥ 0 then t1 else -1

/-- `boundary_hit_t` (observation.cpp anonymous namespace). -/
def boundary_hit_t (origin dir : Vec2) : ℚ :=
  let eps : ℚ := 1 / 1000000
  let best := kRayRange
  let best := if dir.x > eps then min best ((kArenaWidth - origin.x) / dir.x) else best
  let best := if dir.x < -eps then min best ((0 - origin.x) / dir.x) else best
  let best := if dir.y > eps then min best ((kArenaHeight - origin.y) / dir.y) else best
  let best := if dir.y < -eps then min best ((0 - origin.y) / dir.y) else best
  clampQ best 0 kRayRange

/-- Insertion into a list sorted by ascending squared distance (models the
`std::sort` by `.first` in build_observation; tie order is unobservable for
the properties proved here and deterministic either way). -/
def insertByKey (x : ℚ × Zombie) : List (ℚ × Zombie) → List (ℚ × Zombie)
  | [] => [x]
  | y :: ys => if x.1 < y.1 then x :: y :: ys else y :: insertByKey x ys

def sortZombiesByKey (l : List (ℚ × Zombie)) : List (ℚ × Zombie) :=
  l.foldr insertByKey []

/-- One nearest-zombie feature block (observation.cpp lines 96-108). -/
def zombie_block (p : Player) (z : Zombie) : List ℚ :=
  let rel : Vec2 := ⟨z.pos.x - p.pos.x, z.pos.y - p.pos.y⟩
  [rel.x / kArenaWidth, rel.y / kArenaHeight, vlength rel / 500,
   (z.vel.x - p.vel.x) / 400, (z.vel.y - p.vel.y) / 400]

/-- The `kZombieObsCount` nearest-zombie blocks, zero-padded (pad encodes
relative distance 1.0). -/
def zombie_feats (p : Player) : ℕ → List Zombie → List ℚ
  | 0, _ => []
  | n + 1, [] => [0, 0, 1, 0, 0] ++ zombie_feats p n []
  | n + 1, z :: zs => zombie_block p z ++ zombie_feats p n zs

/-- One radial ray pair (observation.cpp lines 110-128): obstacle-hit
fraction (arena boundary and obstacles) and zombie-hit fraction. -/
def ray_pair (s : GameState) (i : ℕ) : List ℚ :=
  let theta : ℚ := ((i : ℚ) / (kRayCount : ℚ)) * (628318530718 / 100000000000)
  let dir : Vec2 := ⟨cosQ theta, sinQ theta⟩
  let ppos := s.player.pos
  let obstacle_t := s.obstacles.foldl
    (fun acc o => let t := obs_ray_aabb_t ppos dir o; if t ≥ 0 then min acc t else acc)
    (boundary_hit_t ppos dir)
  let zombie_t := s.zombies.foldl
    (fun acc z => let t := obs_ray_circle_t ppos dir z.pos kZombieRadius;
                  if t ≥ 0 then min acc t else acc)
    kRayRange
  [clampQ (obstacle_t / kRayRange) 0 1, clampQ (zombie_t / kRayRange) 0 1]

/-- The ray features for indices 0..n-1, in ascending order. -/
def ray_feats (s : GameState) : ℕ → List ℚ
  | 0 => []
  | n + 1 => ray_feats s n ++ ray_pair s n

/-- `build_observation` (observation.cpp): the fixed-length normalized
feature vector. -/
def build_observation (s : GameState) : List ℚ :=
  let p := s.player
  let head : List ℚ :=
    [p.pos.x / kArenaWidth, p.pos.y / kArenaHeight, p.vel.x / 400, p.vel.y / 400,
     p.health / max 1 p.max_health, p.stamina / max 1 p.max_stamina,
     (p.mag : ℚ) / ((max 1 p.mag_capacity : ℤ) : ℚ), (p.reserve : ℚ) / 300,
     p.shoot_cd, p.reload_timer, p.invuln_timer]
  let keyed := s.zombies.map (fun z =>
    ((z.pos.x - p.pos.x) * (z.pos.x - p.pos.x) + (z.pos.y - p.pos.y) * (z.pos.y - p.pos.y), z))
  let sorted := (sortZombiesByKey keyed).map (fun t => t.2)
  let zfeats := zombie_feats p kZombieObsCount sorted
  let rays := ray_feats s kRayCount
  let choosing : ℚ := if s.play_state = PlayState.ChoosingUpgrade then 1 else 0
  let inv_card_count : ℚ := 1 / 8
  let offers : List ℚ :=
    [((s.upgrade_offer.1.toIdx : ℚ) + 1 / 2) * inv_card_count,
     ((s.upgrade_offer.2.1.toIdx : ℚ) + 1 / 2) * inv_card_count,
     ((s.upgrade_offer.2.2.toIdx : ℚ) + 1 / 2) * inv_card_count]
  let levels : List ℚ :=
    [(s.upgrades.ringOfFire : ℚ) / 5, (s.upgrades.bigShot : ℚ) / 5,
     (s.upgrades.piercingRounds : ℚ) / 5, (s.upgrades.frostRounds : ℚ) / 5,
     (s.upgrades.fastHands : ℚ) / 5, (s.upgrades.extendedMag : ℚ) / 5,
     (s.upgrades.cardio : ℚ) / 5, (s.upgrades.secondWind : ℚ) / 5]
  head ++ zfeats ++ rays ++ [s.difficulty_scalar, choosing] ++ offers ++ levels

/-- Modelled from the spec: `Simulator::observation_dim()` is called by the
binding layer (python_bindings.cpp) but its definition is absent from src/;
the spec (§4.5, §6) fixes it to the declared observation dimensionality,
which for `kZombieObsCount = 8`, `kRayCount = 16` is 96. -/
def observation_dim : ℕ := 96

-- Reset and step (sim.cpp).

/-- `Simulator::reset(seed)` (sim.cpp lines 54-62): fresh world state,
obstacles installed, RNG rewound, initial offer rolled. -/
def resetState (g : ℕ → ℚ) (seed : ℕ) : SimState :=
  let ro := roll_upgrade_offer g 0
  { game := { seed := seed, obstacles := init_obstacles, upgrade_offer := ro.1 },
    rngIdx := ro.2, pause := 0, crossed := 0 }

/-- Player-zombie contact damage (sim.cpp lines 367-376), including the
final clamp of health to ≥ 0. -/
def contact_phase (s : GameState) : GameState :=
  let contact := contact_loop s.player.pos s.player.invuln_timer s.zombies
  let hits : ℚ := (contact.2 : ℚ)
  { s with zombies := contact.1,
           player := { s.player with health := max 0 (s.player.health - 10 * hits) },
           stats := { s.stats with damage_taken := s.stats.damage_taken + 10 * hits } }

/-- Second-wind consumption and the death transition (sim.cpp lines
378-387). -/
def death_phase (s : GameState) : GameState :=
  let s :=
    if s.player.health ≤ 0 ∧ s.upgrades.secondWind > 0 ∧
       s.upgrades.second_wind_used = false then
      { s with
        upgrades := { s.upgrades with second_wind_used := true },
        player := { s.player with
                    health := s.player.max_health * (3 / 5), invuln_timer := 2 } }
    else s
  if s.player.health ≤ 0 then { s with play_state := PlayState.Dead } else s

/-- Difficulty recomputation and zombie spawning (sim.cpp lines 389-396). -/
def spawn_phase (g : ℕ → ℚ) (idx : ℕ) (s : GameState) : GameState × ℕ :=
  let difficulty := s.episode_time_s / 90
  let spawn_rate : ℚ := 1 + difficulty * (6 / 5)
  let max_alive : ℤ := 16 + ⌊difficulty * 18⌋
  let budget0 := s.spawn_budget + spawn_rate * kFixedDt
  let sp := spawn_loop g max_alive difficulty ⌈budget0⌉.toNat budget0 s.zombies idx
  ({ s with difficulty_scalar := difficulty, spawn_budget := sp.1, zombies := sp.2.1 }, sp.2.2)

/-- Upgrade-offer cadence and time advance (sim.cpp lines 398-404). -/
def clock_phase (s : GameState) : GameState :=
  let clock := s.upgrade_clock + kFixedDt
  { s with upgrade_clock := clock,
           play_state := if clock ≥ 20 then PlayState.ChoosingUpgrade else s.play_state,
           episode_time_s := s.episode_time_s + kFixedDt,
           tick := s.tick + 1 }

/-- The `if (state_.play_state == PlayState::Playing)` block of
`Simulator::step`: the full gameplay tick. -/
def playing_tick (g : ℕ → ℚ) (a : Action) (s : SimState) : SimState :=
  let gs := update_zombies (update_player a s.game)
  let ub := update_bullets gs
  let rof := apply_ring_of_fire ub.1
  let sp := spawn_phase g s.rngIdx (death_phase (contact_phase rof.1))
  { game := clock_phase sp.1, rngIdx := sp.2, pause := s.pause,
    crossed := s.crossed + ub.2 + rof.2 }

/-- `Simulator::step(action)` (sim.cpp lines 356-442). -/
def step (g : ℕ → ℚ) (s : SimState) (a : Action) : SimState × StepResult :=
  let prev_stats := s.game.stats
  let s1 := handle_upgrade_choice g a s
  let s2 := if s1.game.play_state = PlayState.Playing then playing_tick g a s1 else s1
  let out : StepResult :=
    { observation := build_observation s2.game,
      reward := compute_reward prev_stats s2.game,
      terminated := decide (s2.game.play_state = PlayState.Dead),
      truncated := decide (s2.game.episode_time_s ≥ kEpisodeLimitSeconds) }
  (s2, out)

/-- Fold a list of actions through `step`, keeping only the state. -/
def runSim (g : ℕ → ℚ) (seed : ℕ) (acts : List Action) : SimState :=
  acts.foldl (fun s a => (step g s a).1) (resetState g seed)

/-- The reset observation followed by every per-step output of a run: the
full externally visible trajectory of `reset(seed)` + the action sequence. -/
def runTrace (g : ℕ → ℚ) (seed : ℕ) (acts : List Action) :
    List ℚ × List StepResult :=
  let rec go (s : SimState) : List Action → List StepResult
    | [] => []
    | a :: rest =>
      let r := step g s a
      r.2 :: go r.1 rest
  (build_observation (resetState g seed).game, go (resetState g seed) acts)

/-- A family of RNG streams indexed by seed: `seedStreams seed` models the
draw stream of `std::mt19937_64` seeded with `seed` (reseeded on every
`reset`).  The engine makes no assumption about the family beyond each
stream being a function of the seed. -/
def runTraceSeeded (seedStreams : ℕ → ℕ → ℚ) (seed : ℕ) (acts : List Action) :
    List ℚ × List StepResult :=
  runTrace (seedStreams seed) seed acts

/-- The all-zero draw stream, used to instantiate theorems at concrete
inputs. -/
def zeroStream : ℕ → ℚ := fun _ => 0

theorem zeroStream_valid : ValidStream zeroStream := by
  intro n
  constructor
  · exact le_refl 0
  · norm_num [zeroStream]

/-!  ## State invariants  -/

/-- A position lies inside the arena rectangle. -/
def posInArena (v : Vec2) : Prop :=
  0 ≤ v.x ∧ v.x ≤ kArenaWidth ∧ 0 ≤ v.y ∧ v.y ≤ kArenaHeight

instance (v : Vec2) : Decidable (posInArena v) := by
  unfold posInArena; infer_instance

/-- All stack levels are nonnegative. -/
def LevelsOk (u : UpgradeState) : Prop :=
  0 ≤ u.ringOfFire ∧ 0 ≤ u.bigShot ∧ 0 ≤ u.piercingRounds ∧ 0 ≤ u.frostRounds ∧
  0 ≤ u.fastHands ∧ 0 ≤ u.extendedMag ∧ 0 ≤ u.cardio ∧ 0 ≤ u.secondWind

instance (u : UpgradeState) : Decidable (LevelsOk u) := by
  unfold LevelsOk; infer_instance

/-- Number of dead-but-not-yet-removed zombies in a list. -/
def deadCountL (l : List Zombie) : ℕ := l.countP (fun z => decide (z.hp ≤ 0))

/-- The reachable-state invariant: established by `resetState`, preserved by
`step` for every action and every valid RNG stream (proved below).  The
final conjunct is the kill-accounting linkage between `stats.kills`, the
ghost crossing counter and the dead-in-list count. -/
def Inv (s : SimState) : Prop :=
  posInArena s.game.player.pos ∧
  (∀ z ∈ s.game.zombies, posInArena z.pos) ∧
  0 ≤ s.game.player.health ∧
  s.game.player.max_health = 100 ∧
  0 ≤ s.game.player.stamina ∧
  0 ≤ s.game.player.mag ∧
  0 ≤ s.game.player.reserve ∧
  s.game.player.mag ≤ s.game.player.mag_capacity ∧
  s.game.player.mag_capacity = 12 + s.game.upgrades.extendedMag * 3 ∧
  LevelsOk s.game.upgrades ∧
  (∀ b ∈ s.game.bullets, 0 ≤ b.damage) ∧
  (s.game.play_state = PlayState.Dead →
     s.game.player.health = 0 ∧
     (0 < s.game.upgrades.secondWind → s.game.upgrades.second_wind_used = true)) ∧
  s.pause < kUpgradeChoiceTimeoutTicks ∧
  0 ≤ s.game.episode_time_s ∧
  s.game.obstacles = init_obstacles ∧
  s.game.stats.kills = (s.crossed : ℤ) - (deadCountL s.game.zombies : ℤ) ∧
  (s.game.play_state = PlayState.Playing → 0 < s.game.player.health)

instance (s : SimState) : Decidable (Inv s) := by
  unfold Inv; infer_instance

/-!  ## Lifetime hit count of a bullet and concrete scenario states  -/

/-- The total number of zombies a bullet damages over its lifetime: on each
tick it meets the zombie list of that tick in `bullet_zombie_loop`
(sim.cpp lines 268-282) and carries its decremented pierce counter to the
next tick; once the pierce counter has dropped below zero the bullet has
been culled by the `remove_if` (sim.cpp lines 285-289) and hits nothing
further. -/
def lifeHits (frost : ℤ) : Bullet → List (List Zombie) → ℤ
  | _, [] => 0
  | b, zs :: rest =>
    if b.pierce < 0 then 0
    else (bullet_zombie_loop frost b zs).hits +
         lifeHits frost (bullet_zombie_loop frost b zs).bullet rest

/-- A bullet with pierce 2, one integration step away from a cluster of
three zombies. -/
def pierceBullet : Bullet :=
  { pos := ⟨100 - 38 / 3, 100⟩, vel := ⟨760, 0⟩, radius := 4, damage := 22,
    pierce := 2 }

/-- Three full-health zombies in contact range of `pierceBullet` after its
integration step. -/
def threeZombies : List Zombie :=
  [{ pos := ⟨100, 100⟩, hp := 30 }, { pos := ⟨105, 100⟩, hp := 30 },
   { pos := ⟨95, 100⟩, hp := 30 }]

/-- A concrete upgrade-choice state satisfying `Inv` with the player at
zero health and no Second Wind.  It is the state the clock-override race
leaves behind: when the 20-second offer clock fires on the very tick the
player's health reaches 0, the `ChoosingUpgrade` assignment (sim.cpp line
400) runs after the `Dead` assignment (line 386) and overwrites it, so the
episode continues in the upgrade-choice state with a dead player. -/
def c3state : SimState :=
  { game := { seed := 0, tick := 5401, episode_time_s := 5401 / 60,
              play_state := .ChoosingUpgrade, difficulty_scalar := 1,
              player := { pos := ⟨25, 1400⟩, vel := ⟨0, 0⟩, health := 0,
                          stamina := 50, mag := 12, mag_capacity := 12,
                          reserve := 100 },
              zombies := [{ pos := ⟨11, 1400⟩, hp := 5, touch_cd := 3 / 2 }],
              bullets := [], obstacles := init_obstacles, upgrades := {},
              spawn_budget := 0, upgrade_clock := 20,
              stats := { damage_taken := 10 } },
    rngIdx := 0, pause := 0, crossed := 0 }

/-- A concrete mid-episode state satisfying `Inv`: the player owns Ring of
Fire level 1 and a nearly dead zombie sits inside the ring, so the next
tick's area damage takes its hit points below zero after `update_bullets`
has already pruned the dead (sim.cpp lines 285-306). -/
def c5state : SimState :=
  { game := { seed := 0, tick := 1500, episode_time_s := 25,
              play_state := .Playing, difficulty_scalar := 5 / 18,
              player := { pos := ⟨4000, 2600⟩, vel := ⟨0, 0⟩, health := 100,
                          stamina := 100, mag := 12, mag_capacity := 12,
                          reserve := 100 },
              zombies := [{ pos := ⟨3950, 2600⟩, hp := 1 / 10 }],
              bullets := [], obstacles := init_obstacles,
              upgrades := { ringOfFire := 1 },
              spawn_budget := 0, upgrade_clock := 5, stats := {} },
    rngIdx := 0, pause := 0, crossed := 0 }

/-- A concrete upgrade-choice state satisfying `Inv` with no invalid ticks
accumulated yet (`pause = 0`). -/
def c7waitstate : SimState :=
  { game := { seed := 0, tick := 1200, episode_time_s := 20,
              play_state := .ChoosingUpgrade,
              player := { pos := ⟨4000, 2600⟩, vel := ⟨0, 0⟩, health := 80,
                          stamina := 90, mag := 12, mag_capacity := 12,
                          reserve := 120 },
              zombies := [], bullets := [], obstacles := init_obstacles,
              upgrades := {}, spawn_budget := 0, upgrade_clock := 20,
              stats := {} },
    rngIdx := 3, pause := 0, crossed := 0 }

/-- A concrete upgrade-choice state satisfying `Inv` after 59 consecutive
invalid-choice ticks: one more invalid tick reaches the timeout and
force-applies the first offered card (sim.cpp lines 310-318). -/
def c7state : SimState :=
  { game := { seed := 0, tick := 1259, episode_time_s := 20,
              play_state := .ChoosingUpgrade,
              player := { pos := ⟨4000, 2600⟩, vel := ⟨0, 0⟩, health := 80,
                          stamina := 90, mag := 12, mag_capacity := 12,
                          reserve := 120 },
              zombies := [], bullets := [], obstacles := init_obstacles,
              upgrades := {}, spawn_budget := 0, upgrade_clock := 20,
              stats := {} },
    rngIdx := 3, pause := 59, crossed := 0 }

/-- A concrete playing state satisfying `Inv` whose reload timer is idle,
magazine is below capacity and reserve is positive: the passive refill
(sim.cpp lines 144-149) fires on the next tick unless the action's reload
request re-arms the delay timer first (sim.cpp lines 140-143). -/
def c10state : SimState :=
  { game := { seed := 0, tick := 100, episode_time_s := 3,
              play_state := .Playing,
              player := { pos := ⟨4000, 2600⟩, vel := ⟨0, 0⟩, health := 100,
                          stamina := 100, mag := 5, mag_capacity := 12,
                          reserve := 100 },
              zombies := [], bullets := [], obstacles := init_obstacles,
              spawn_budget := 0, upgrade_clock := 3, stats := {} },
    rngIdx := 0, pause := 0, crossed := 0 }

/-!  ## Clamping and sanitization lemmas  -/

theorem posInArena_sanitize (p f : Vec2) (r : ℚ) (h0 : 0 ≤ r)
    (hW : r ≤ kArenaWidth - r) (hH : r ≤ kArenaHeight - r) :
    posInArena (sanitize_position p f r) := by
  unfold sanitize_position clamp_position_in_bounds posInArena
  refine ⟨le_trans h0 (le_max_left _ _), ?_, le_trans h0 (le_max_left _ _), ?_⟩
  · exact le_trans (max_le hW (min_le_right _ _))
      (by linarith : kArenaWidth - r ≤ kArenaWidth)
  · exact le_trans (max_le hH (min_le_right _ _))
      (by linarith : kArenaHeight - r ≤ kArenaHeight)

theorem posInArena_sanitize_player (p f : Vec2) :
    posInArena (sanitize_position p f kPlayerRadius) := by
  apply posInArena_sanitize <;> norm_num [kPlayerRadius, kArenaWidth, kArenaHeight]

theorem posInArena_sanitize_zombie (p f : Vec2) :
    posInArena (sanitize_position p f kZombieRadius) := by
  apply posInArena_sanitize <;> norm_num [kZombieRadius, kArenaWidth, kArenaHeight]

/-!  ## Small list helpers  -/

theorem set_of_get?_eq {α : Type} (l : List α) (i : ℕ) (x : α)
    (h : l.get? i = some x) : l.set i x = l := by
  induction l generalizing i with
  | nil => simp
  | cons a t ih =>
    cases i with
    | zero => simp_all
    | succ j =>
      simp only [List.get?_cons_succ] at h
      simp [List.set, ih j h]

theorem map_set_of_eq {α β : Type} (f : α → β) (l : List α) (i : ℕ) (x : α)
    (h : ∀ x0, l.get? i = some x0 → f x = f x0) :
    (l.set i x).map f = l.map f := by
  induction l generalizing i with
  | nil => simp
  | cons a t ih =>
    cases i with
    | zero => simp_all
    | succ j =>
      simp only [List.get?_cons_succ] at h
      simp [List.set, ih j h]

theorem forall_pos_of_map_pos_eq {P : Vec2 → Prop} {l l2 : List Zombie}
    (h : l2.map Zombie.pos = l.map Zombie.pos) (hl : ∀ z ∈ l, P z.pos) :
    ∀ z ∈ l2, P z.pos := by
  intro z hz
  have hmem : z.pos ∈ l.map Zombie.pos := by
    rw [← h]; exact List.mem_map_of_mem _ hz
  obtain ⟨w, hw, hwp⟩ := List.mem_map.1 hmem
  rw [← hwp]; exact hl w hw


/-!  ## update_player facts  -/

theorem update_player_frame (a : Action) (s : GameState) :
    (update_player a s).zombies = s.zombies ∧
    (update_player a s).upgrades = s.upgrades ∧
    (update_player a s).obstacles = s.obstacles ∧
    (update_player a s).play_state = s.play_state ∧
    (update_player a s).episode_time_s = s.episode_time_s ∧
    (update_player a s).spawn_budget = s.spawn_budget ∧
    (update_player a s).upgrade_clock = s.upgrade_clock ∧
    (update_player a s).stats.kills = s.stats.kills ∧
    (update_player a s).player.health = s.player.health ∧
    (update_player a s).player.max_health = s.player.max_health := by
  unfold update_player
  refine ⟨rfl, rfl, rfl, rfl, rfl, rfl, rfl, ?_, rfl, rfl⟩
  dsimp only
  repeat' split
  all_goals rfl

theorem update_player_pos (a : Action) (s : GameState) :
    posInArena (update_player a s).player.pos := by
  unfold update_player
  dsimp only
  exact posInArena_sanitize_player _ _

theorem update_player_stamina (a : Action) (s : GameState)
    (hst : 0 ≤ s.player.stamina) (hc : 0 ≤ s.upgrades.cardio) :
    0 ≤ (update_player a s).player.stamina := by
  unfold update_player
  dsimp only
  split
  · exact le_max_left 0 _
  · apply le_min
    · have : (0 : ℚ) ≤ (s.upgrades.cardio : ℚ) := by exact_mod_cast hc
      linarith
    · have : (0 : ℚ) ≤ (s.upgrades.cardio : ℚ) := by exact_mod_cast hc
      have hdt : (0 : ℚ) < kFixedDt := by norm_num [kFixedDt]
      nlinarith

theorem update_player_ammo (a : Action) (s : GameState)
    (hm : 0 ≤ s.player.mag) (hr : 0 ≤ s.player.reserve)
    (hmc : s.player.mag ≤ 12 + s.upgrades.extendedMag * 3) :
    0 ≤ (update_player a s).player.mag ∧
    0 ≤ (update_player a s).player.reserve ∧
    (update_player a s).player.mag ≤ (update_player a s).player.mag_capacity ∧
    (update_player a s).player.mag_capacity = 12 + s.upgrades.extendedMag * 3 := by
  unfold update_player
  dsimp only
  refine ⟨?_, ?_, ?_, rfl⟩
  all_goals repeat' split
  all_goals omega

/-!  ## update_zombies facts  -/

theorem get?_set_ne {α : Type} (l : List α) (x : α) {i j : ℕ} (h : i ≠ j) :
    (l.set i x).get? j = l.get? j := by
  induction l generalizing i j with
  | nil => simp
  | cons a t ih =>
    cases i with
    | zero =>
      cases j with
      | zero => exact absurd rfl h
      | succ k => simp [List.set]
    | succ m =>
      cases j with
      | zero => simp [List.set]
      | succ k => simpa [List.set] using ih (fun hmk => h (by rw [hmk]))

theorem get?_set_self_of_some {α : Type} (l : List α) (x y : α) {i : ℕ}
    (h : l.get? i = some y) : (l.set i x).get? i = some x := by
  induction l generalizing i with
  | nil => simp at h
  | cons a t ih =>
    cases i with
    | zero => simp [List.set]
    | succ m =>
      simp only [List.get?_cons_succ] at h
      simpa [List.set] using ih h

theorem pair_separation_map_hp (pp : Vec2) (zs : List Zombie) (ij : ℕ × ℕ) :
    (pair_separation pp zs ij).map Zombie.hp = zs.map Zombie.hp := by
  unfold pair_separation
  split
  · rename_i zi zj hgi hgj
    dsimp only
    rw [map_set_of_eq, map_set_of_eq]
    · intro x0 hx0
      rw [hgi] at hx0
      cases hx0
      rfl
    · intro x0 hx0
      by_cases hij : ij.1 = ij.2
      · rw [← hij] at hx0
        rw [get?_set_self_of_some _ _ _ hgi] at hx0
        cases hx0
        rw [← hij, hgi] at hgj
        cases hgj
        rfl
      · rw [get?_set_ne _ _ hij, hgj] at hx0
        cases hx0
        rfl
  · rfl

theorem player_separation_map_hp_aux (zs : List Zombie) (pp : Vec2) (i : ℕ) :
    ((player_separation (zs, pp) i).1).map Zombie.hp = zs.map Zombie.hp := by
  unfold player_separation
  try dsimp only
  split
  · rename_i z hz
    try dsimp only
    split
    · rw [map_set_of_eq]
      intro x0 hx0
      rw [hz] at hx0
      cases hx0
      rfl
    · rfl
  · rfl

theorem player_separation_map_hp (st : List Zombie × Vec2) (i : ℕ) :
    ((player_separation st i).1).map Zombie.hp = st.1.map Zombie.hp := by
  obtain ⟨zs, pp⟩ := st
  exact player_separation_map_hp_aux zs pp i

theorem separation_iteration_map_hp (st : List Zombie × Vec2) :
    ((separation_iteration st).1).map Zombie.hp = st.1.map Zombie.hp := by
  have h1 : ∀ (ps : List (ℕ × ℕ)) (zs : List Zombie) (pp : Vec2),
      (ps.foldl (pair_separation pp) zs).map Zombie.hp = zs.map Zombie.hp := by
    intro ps
    induction ps with
    | nil => intro zs pp; rfl
    | cons hd tl ih =>
      intro zs pp
      simp only [List.foldl_cons]
      rw [ih, pair_separation_map_hp]
  have h2 : ∀ (ix : List ℕ) (p0 : List Zombie × Vec2),
      ((ix.foldl player_separation p0).1).map Zombie.hp = p0.1.map Zombie.hp := by
    intro ix
    induction ix with
    | nil => intro p0; rfl
    | cons hd tl ih =>
      intro p0
      simp only [List.foldl_cons]
      rw [ih, player_separation_map_hp]
  obtain ⟨zs, pp⟩ := st
  unfold separation_iteration
  dsimp only
  rw [h2, h1]

theorem update_zombies_map_hp (s : GameState) :
    ((update_zombies s).zombies).map Zombie.hp = s.zombies.map Zombie.hp := by
  unfold update_zombies
  dsimp only
  rw [List.map_map]
  have h1 : ∀ (sep : List Zombie × Vec2),
      sep.1.map (Zombie.hp ∘ zombie_obstacles s.obstacles sep.2) = sep.1.map Zombie.hp := by
    intro sep
    exact List.map_congr_left (fun z _ => rfl)
  rw [h1, separation_iteration_map_hp, separation_iteration_map_hp]
  dsimp only
  rw [List.map_map]
  exact List.map_congr_left (fun z _ => rfl)

theorem zombie_obstacles_pos (obs : List Obstacle) (pp : Vec2) (z : Zombie) :
    posInArena (zombie_obstacles obs pp z).pos := by
  unfold zombie_obstacles
  dsimp only
  exact posInArena_sanitize_zombie _ _

theorem update_zombies_pos (s : GameState) :
    posInArena (update_zombies s).player.pos ∧
    ∀ z ∈ (update_zombies s).zombies, posInArena z.pos := by
  constructor
  · unfold update_zombies
    dsimp only
    exact posInArena_sanitize_player _ _
  · intro z hz
    unfold update_zombies at hz
    dsimp only at hz
    obtain ⟨w, hw, rfl⟩ := List.mem_map.1 hz
    exact zombie_obstacles_pos _ _ _

theorem update_zombies_frame (s : GameState) :
    (update_zombies s).player.health = s.player.health ∧
    (update_zombies s).player.max_health = s.player.max_health ∧
    (update_zombies s).player.stamina = s.player.stamina ∧
    (update_zombies s).player.mag = s.player.mag ∧
    (update_zombies s).player.reserve = s.player.reserve ∧
    (update_zombies s).player.mag_capacity = s.player.mag_capacity ∧
    (update_zombies s).player.invuln_timer = s.player.invuln_timer ∧
    (update_zombies s).bullets = s.bullets ∧
    (update_zombies s).upgrades = s.upgrades ∧
    (update_zombies s).obstacles = s.obstacles ∧
    (update_zombies s).play_state = s.play_state ∧
    (update_zombies s).episode_time_s = s.episode_time_s ∧
    (update_zombies s).spawn_budget = s.spawn_budget ∧
    (update_zombies s).upgrade_clock = s.upgrade_clock ∧
    (update_zombies s).stats = s.stats := by
  refine ⟨rfl, rfl, rfl, rfl, rfl, rfl, rfl, rfl, rfl, rfl, rfl, rfl, rfl, rfl, rfl⟩

/-!  ## bullet-phase facts  -/

theorem bullet_zombie_loop_spec (frost : ℤ) (b : Bullet) (zs : List Zombie) :
    ((bullet_zombie_loop frost b zs).zombies).map Zombie.pos = zs.map Zombie.pos ∧
    (bullet_zombie_loop frost b zs).bullet.pierce = b.pierce - (bullet_zombie_loop frost b zs).hits ∧
    0 ≤ (bullet_zombie_loop frost b zs).hits ∧
    (bullet_zombie_loop frost b zs).bullet.damage = b.damage := by
  induction zs generalizing b with
  | nil => exact ⟨rfl, by simp [bullet_zombie_loop], le_refl 0, rfl⟩
  | cons z t ih =>
    unfold bullet_zombie_loop
    dsimp only
    split
    · split
      · exact ⟨rfl, rfl, by norm_num, rfl⟩
      · obtain ⟨ih1, ih2, ih3, ih4⟩ := ih { b with pierce := b.pierce - 1 }
        dsimp only at ih2 ih4
        refine ⟨?_, ?_, ?_, ?_⟩
        · dsimp only
          rw [List.map_cons, List.map_cons, ih1]
        · dsimp only
          omega
        · dsimp only
          omega
        · exact ih4
    · obtain ⟨ih1, ih2, ih3, ih4⟩ := ih b
      exact ⟨by dsimp only; rw [List.map_cons, List.map_cons, ih1], ih2, ih3, ih4⟩

theorem bullet_zombie_loop_dead (frost : ℤ) (b : Bullet) (zs : List Zombie)
    (hd : 0 ≤ b.damage) :
    deadCountL (bullet_zombie_loop frost b zs).zombies
      = deadCountL zs + (bullet_zombie_loop frost b zs).crossed := by
  induction zs generalizing b with
  | nil => simp [bullet_zombie_loop, deadCountL]
  | cons z t ih =>
    unfold bullet_zombie_loop
    dsimp only
    split
    · split
      · dsimp only [deadCountL, List.countP_cons]
        by_cases hz : z.hp ≤ 0
        · have hc : z.hp - b.damage ≤ 0 := by linarith
          have hng : ¬ (z.hp > 0) := not_lt.2 hz
          simp [hz, hc, hng]
        · have hz2 : z.hp > 0 := not_le.1 hz
          by_cases hc : z.hp - b.damage ≤ 0
          · simp [hz, hc, hz2]
          · simp [hz, hc, hz2]
      · have ihh := ih { b with pierce := b.pierce - 1 } hd
        dsimp only
        simp only [deadCountL, List.countP_cons] at ihh ⊢
        rw [ihh]
        by_cases hz : z.hp ≤ 0
        · have hc : z.hp - b.damage ≤ 0 := by linarith
          have hng : ¬ (z.hp > 0) := not_lt.2 hz
          simp [hz, hc, hng]
          omega
        · have hz2 : z.hp > 0 := not_le.1 hz
          by_cases hc : z.hp - b.damage ≤ 0
          · simp [hz, hc, hz2]
            omega
          · simp [hz, hc, hz2]
    · have ihh := ih b hd
      simp only [deadCountL, List.countP_cons] at ihh ⊢
      rw [ihh]
      omega

theorem process_bullet_spec (obs : List Obstacle) (frost : ℤ) (acc : BulletPhase)
    (b : Bullet) (hd : 0 ≤ b.damage) :
    ((process_bullet obs frost acc b).zombies).map Zombie.pos = acc.zombies.map Zombie.pos ∧
    deadCountL (process_bullet obs frost acc b).zombies + acc.crossed
      = deadCountL acc.zombies + (process_bullet obs frost acc b).crossed := by
  unfold process_bullet
  dsimp only
  split
  · exact ⟨rfl, by dsimp only⟩
  · obtain ⟨h1, -, -, -⟩ := bullet_zombie_loop_spec frost _ acc.zombies
    have h2 := bullet_zombie_loop_dead frost
      { b with pos := ⟨b.pos.x + b.vel.x * kFixedDt, b.pos.y + b.vel.y * kFixedDt⟩ }
      acc.zombies hd
    exact ⟨h1, by dsimp only; omega⟩

theorem foldl_bullets_spec (obs : List Obstacle) (frost : ℤ) (bs : List Bullet)
    (acc : BulletPhase) (hd : ∀ b ∈ bs, 0 ≤ b.damage) :
    ((bs.foldl (process_bullet obs frost) acc).zombies).map Zombie.pos
      = acc.zombies.map Zombie.pos ∧
    deadCountL (bs.foldl (process_bullet obs frost) acc).zombies + acc.crossed
      = deadCountL acc.zombies + (bs.foldl (process_bullet obs frost) acc).crossed := by
  induction bs generalizing acc with
  | nil => exact ⟨rfl, by simp only [List.foldl_nil]⟩
  | cons b t ih =>
    simp only [List.foldl_cons]
    have hb : 0 ≤ b.damage := hd b (List.mem_cons_self _ _)
    have ht : ∀ x ∈ t, 0 ≤ x.damage := fun x hx => hd x (List.mem_cons_of_mem _ hx)
    obtain ⟨p1, p2⟩ := process_bullet_spec obs frost acc b hb
    obtain ⟨q1, q2⟩ := ih (process_bullet obs frost acc b) ht
    exact ⟨by rw [q1, p1], by omega⟩

theorem update_bullets_spec (s : GameState) (hd : ∀ b ∈ s.bullets, 0 ≤ b.damage) :
    (update_bullets s).1.player = s.player ∧
    (update_bullets s).1.upgrades = s.upgrades ∧
    (update_bullets s).1.obstacles = s.obstacles ∧
    (update_bullets s).1.play_state = s.play_state ∧
    (update_bullets s).1.episode_time_s = s.episode_time_s ∧
    (update_bullets s).1.spawn_budget = s.spawn_budget ∧
    (update_bullets s).1.upgrade_clock = s.upgrade_clock ∧
    ((∀ z ∈ s.zombies, posInArena z.pos) →
       ∀ z ∈ (update_bullets s).1.zombies, posInArena z.pos) ∧
    (update_bullets s).1.stats.kills
      = s.stats.kills + (deadCountL s.zombies : ℤ) + ((update_bullets s).2 : ℤ) ∧
    deadCountL (update_bullets s).1.zombies = 0 := by
  obtain ⟨f1, f2⟩ := foldl_bullets_spec s.obstacles s.upgrades.frostRounds s.bullets
    ⟨s.zombies, [], 0, 0, 0⟩ hd
  refine ⟨rfl, rfl, rfl, rfl, rfl, rfl, rfl, ?_, ?_, ?_⟩
  · intro hz z hzmem
    unfold update_bullets at hzmem
    dsimp only at hzmem
    have hzin := (List.mem_filter.1 hzmem).1
    exact forall_pos_of_map_pos_eq f1 hz z hzin
  · have hlen : ∀ (l : List Zombie),
        (l.filter (fun z => decide (z.hp > 0))).length + deadCountL l = l.length := by
      intro l
      induction l with
      | nil => simp [deadCountL]
      | cons z t ih =>
        simp only [List.filter_cons, deadCountL, List.countP_cons] at ih ⊢
        by_cases hz : z.hp > 0
        · have hnd : ¬ (z.hp ≤ 0) := not_le.2 hz
          simp [hz, hnd] at ih ⊢
          omega
        · have hnd : z.hp ≤ 0 := not_lt.1 hz
          simp [hz, hnd] at ih ⊢
          omega
    unfold update_bullets
    dsimp only
    dsimp only at f2
    have hl1 := hlen ((s.bullets.foldl (process_bullet s.obstacles
      s.upgrades.frostRounds) ⟨s.zombies, [], 0, 0, 0⟩).zombies)
    omega
  · have hzero : ∀ (l : List Zombie),
        deadCountL (l.filter (fun z => decide (z.hp > 0))) = 0 := by
      intro l
      unfold deadCountL
      rw [List.countP_eq_zero]
      intro z hz
      have := (List.mem_filter.1 hz).2
      simp only [decide_eq_true_eq] at this ⊢
      exact not_le.2 this
    exact hzero _

/-!  ## ring-of-fire, contact, death, spawn, clock, choice facts  -/

theorem rof_dead_aux (pp : Vec2) (radius d : ℚ) (hd : 0 < d) (l : List Zombie) :
    deadCountL (l.map (fun z =>
        if vlength ⟨z.pos.x - pp.x, z.pos.y - pp.y⟩ < radius
        then { z with hp := z.hp - d } else z))
      = deadCountL l + l.countP (fun z =>
          decide (vlength ⟨z.pos.x - pp.x, z.pos.y - pp.y⟩ < radius ∧
                  z.hp > 0 ∧ z.hp - d ≤ 0)) := by
  induction l with
  | nil => rfl
  | cons z t ih =>
    simp only [List.map_cons, deadCountL, List.countP_cons] at ih ⊢
    rw [ih]
    by_cases hr : vlength ⟨z.pos.x - pp.x, z.pos.y - pp.y⟩ < radius
    · by_cases hz : z.hp ≤ 0
      · have hc : z.hp - d ≤ 0 := by linarith
        have hng : ¬ (z.hp > 0) := not_lt.2 hz
        simp [hr, hz, hc, hng]
        omega
      · have hzp : z.hp > 0 := not_le.1 hz
        by_cases hc : z.hp - d ≤ 0
        · simp [hr, hz, hzp, hc]
          omega
        · simp [hr, hz, hzp, hc]
    · simp [hr]
      omega

theorem apply_ring_of_fire_spec (s : GameState) :
    (apply_ring_of_fire s).1.player = s.player ∧
    (apply_ring_of_fire s).1.stats = s.stats ∧
    (apply_ring_of_fire s).1.bullets = s.bullets ∧
    (apply_ring_of_fire s).1.upgrades = s.upgrades ∧
    (apply_ring_of_fire s).1.obstacles = s.obstacles ∧
    (apply_ring_of_fire s).1.play_state = s.play_state ∧
    (apply_ring_of_fire s).1.episode_time_s = s.episode_time_s ∧
    (apply_ring_of_fire s).1.spawn_budget = s.spawn_budget ∧
    (apply_ring_of_fire s).1.upgrade_clock = s.upgrade_clock ∧
    ((apply_ring_of_fire s).1.zombies).map Zombie.pos = s.zombies.map Zombie.pos ∧
    deadCountL (apply_ring_of_fire s).1.zombies
      = deadCountL s.zombies + (apply_ring_of_fire s).2 := by
  unfold apply_ring_of_fire
  dsimp only
  split
  · exact ⟨rfl, rfl, rfl, rfl, rfl, rfl, rfl, rfl, rfl, rfl, rfl⟩
  · rename_i hlvl
    have hlvl1 : (1 : ℤ) ≤ s.upgrades.ringOfFire := by omega
    have hlq : (1 : ℚ) ≤ (s.upgrades.ringOfFire : ℚ) := by exact_mod_cast hlvl1
    have hdt : (0 : ℚ) < kFixedDt := by norm_num [kFixedDt]
    have hdps : 0 < (18 + (s.upgrades.ringOfFire : ℚ) * 7) * kFixedDt := by nlinarith
    refine ⟨rfl, rfl, rfl, rfl, rfl, rfl, rfl, rfl, rfl, ?_, ?_⟩
    · rw [List.map_map]
      apply List.map_congr_left
      intro z _
      by_cases h : vlength ⟨z.pos.x - s.player.pos.x, z.pos.y - s.player.pos.y⟩
          < 70 + (s.upgrades.ringOfFire : ℚ) * 16
      · simp only [Function.comp_apply, if_pos h]
      · simp only [Function.comp_apply, if_neg h]
    · exact rof_dead_aux s.player.pos _ _ hdps s.zombies

theorem contact_loop_maps (pp : Vec2) (iv : ℚ) (l : List Zombie) :
    ((contact_loop pp iv l).1).map Zombie.pos = l.map Zombie.pos ∧
    ((contact_loop pp iv l).1).map Zombie.hp = l.map Zombie.hp := by
  induction l with
  | nil => exact ⟨rfl, rfl⟩
  | cons z t ih =>
    unfold contact_loop
    dsimp only
    split
    · exact ⟨by rw [List.map_cons, List.map_cons, ih.1],
             by rw [List.map_cons, List.map_cons, ih.2]⟩
    · exact ⟨by rw [List.map_cons, List.map_cons, ih.1],
             by rw [List.map_cons, List.map_cons, ih.2]⟩

theorem contact_phase_spec (s : GameState) :
    (contact_phase s).player.pos = s.player.pos ∧
    (contact_phase s).player.max_health = s.player.max_health ∧
    (contact_phase s).player.stamina = s.player.stamina ∧
    (contact_phase s).player.mag = s.player.mag ∧
    (contact_phase s).player.reserve = s.player.reserve ∧
    (contact_phase s).player.mag_capacity = s.player.mag_capacity ∧
    (contact_phase s).player.invuln_timer = s.player.invuln_timer ∧
    0 ≤ (contact_phase s).player.health ∧
    (contact_phase s).upgrades = s.upgrades ∧
    (contact_phase s).bullets = s.bullets ∧
    (contact_phase s).obstacles = s.obstacles ∧
    (contact_phase s).play_state = s.play_state ∧
    (contact_phase s).episode_time_s = s.episode_time_s ∧
    (contact_phase s).spawn_budget = s.spawn_budget ∧
    (contact_phase s).upgrade_clock = s.upgrade_clock ∧
    (contact_phase s).stats.kills = s.stats.kills ∧
    ((contact_phase s).zombies).map Zombie.pos = s.zombies.map Zombie.pos ∧
    ((contact_phase s).zombies).map Zombie.hp = s.zombies.map Zombie.hp := by
  obtain ⟨h1, h2⟩ := contact_loop_maps s.player.pos s.player.invuln_timer s.zombies
  exact ⟨rfl, rfl, rfl, rfl, rfl, rfl, rfl, le_max_left 0 _, rfl, rfl, rfl, rfl,
         rfl, rfl, rfl, rfl, h1, h2⟩

theorem death_phase_frame (s : GameState) :
    (death_phase s).zombies = s.zombies ∧
    (death_phase s).stats = s.stats ∧
    (death_phase s).bullets = s.bullets ∧
    (death_phase s).obstacles = s.obstacles ∧
    (death_phase s).episode_time_s = s.episode_time_s ∧
    (death_phase s).spawn_budget = s.spawn_budget ∧
    (death_phase s).upgrade_clock = s.upgrade_clock ∧
    (death_phase s).player.pos = s.player.pos ∧
    (death_phase s).player.max_health = s.player.max_health ∧
    (death_phase s).player.stamina = s.player.stamina ∧
    (death_phase s).player.mag = s.player.mag ∧
    (death_phase s).player.reserve = s.player.reserve ∧
    (death_phase s).player.mag_capacity = s.player.mag_capacity ∧
    (death_phase s).upgrades.ringOfFire = s.upgrades.ringOfFire ∧
    (death_phase s).upgrades.bigShot = s.upgrades.bigShot ∧
    (death_phase s).upgrades.piercingRounds = s.upgrades.piercingRounds ∧
    (death_phase s).upgrades.frostRounds = s.upgrades.frostRounds ∧
    (death_phase s).upgrades.fastHands = s.upgrades.fastHands ∧
    (death_phase s).upgrades.extendedMag = s.upgrades.extendedMag ∧
    (death_phase s).upgrades.cardio = s.upgrades.cardio ∧
    (death_phase s).upgrades.secondWind = s.upgrades.secondWind := by
  unfold death_phase
  dsimp only
  repeat' split
  all_goals repeat' apply And.intro
  all_goals rfl

theorem death_phase_state (s : GameState) (hmax : s.player.max_health = 100)
    (hps : s.play_state = PlayState.Playing) :
    ((death_phase s).play_state = PlayState.Dead ∨
       (death_phase s).play_state = PlayState.Playing) ∧
    ((death_phase s).play_state = PlayState.Dead ↔ (death_phase s).player.health ≤ 0) ∧
    (0 ≤ s.player.health → 0 ≤ (death_phase s).player.health) ∧
    ((death_phase s).play_state = PlayState.Dead →
       (0 < (death_phase s).upgrades.secondWind →
          (death_phase s).upgrades.second_wind_used = true)) := by
  unfold death_phase
  dsimp only
  split
  · rename_i hsw
    split
    · rename_i hdead
      rw [hmax] at hdead
      norm_num at hdead
    · rename_i hdead
      refine ⟨Or.inr hps, ?_, ?_, ?_⟩
      · constructor
        · intro hc
          have hc2 : s.play_state = PlayState.Dead := hc
          rw [hps] at hc2
          exact absurd hc2 (by simp)
        · intro hc
          rw [hmax] at hc
          norm_num at hc
      · intro _
        rw [hmax]
        norm_num
      · intro hc
        have hc2 : s.play_state = PlayState.Dead := hc
        rw [hps] at hc2
        exact absurd hc2 (by simp)
  · rename_i hsw
    split
    · rename_i hdead
      refine ⟨Or.inl rfl, ?_, fun h => h, ?_⟩
      · exact ⟨fun _ => hdead, fun _ => rfl⟩
      · intro _ hswpos
        by_contra hused
        have hub : s.upgrades.second_wind_used = false := by
          cases hflag : s.upgrades.second_wind_used
          · rfl
          · exact absurd hflag hused
        exact hsw ⟨hdead, hswpos, hub⟩
    · rename_i hdead
      refine ⟨Or.inr hps, ?_, fun h => h, ?_⟩
      · constructor
        · intro hc
          have hc2 : s.play_state = PlayState.Dead := hc
          rw [hps] at hc2
          exact absurd hc2 (by simp)
        · intro hc
          exact absurd hc hdead
      · intro hc
        have hc2 : s.play_state = PlayState.Dead := hc
        rw [hps] at hc2
        exact absurd hc2 (by simp)

theorem spawn_zombie_spec (g : ℕ → ℚ) (hg : ValidStream g) (idx : ℕ) (d : ℚ)
    (hd : 0 ≤ d) :
    posInArena (spawn_zombie g idx d).1.pos ∧ 0 < (spawn_zombie g idx d).1.hp := by
  obtain ⟨hg0, hg1⟩ := hg (idx + 1)
  unfold spawn_zombie rngUniformInt rngUniform
  dsimp only
  constructor
  · repeat' split
    all_goals unfold posInArena
    all_goals refine ⟨?_, ?_, ?_, ?_⟩
    all_goals norm_num [kArenaWidth, kArenaHeight]
    all_goals linarith
  · dsimp only
    linarith

theorem spawn_loop_pos (g : ℕ → ℚ) (hg : ValidStream g) (ma : ℤ) (d : ℚ)
    (hd : 0 ≤ d) :
    ∀ (fuel : ℕ) (budget : ℚ) (zs : List Zombie) (idx : ℕ),
      (∀ z ∈ zs, posInArena z.pos) →
      ∀ z ∈ (spawn_loop g ma d fuel budget zs idx).2.1, posInArena z.pos := by
  intro fuel
  induction fuel with
  | zero => intro budget zs idx hz; exact hz
  | succ n ih =>
    intro budget zs idx hz
    unfold spawn_loop
    dsimp only
    split
    · apply ih
      intro z hzm
      rcases List.mem_append.1 hzm with h | h
      · exact hz z h
      · simp only [List.mem_singleton] at h
        subst h
        exact (spawn_zombie_spec g hg idx d hd).1
    · exact hz

theorem spawn_loop_dead (g : ℕ → ℚ) (hg : ValidStream g) (ma : ℤ) (d : ℚ)
    (hd : 0 ≤ d) :
    ∀ (fuel : ℕ) (budget : ℚ) (zs : List Zombie) (idx : ℕ),
      deadCountL (spawn_loop g ma d fuel budget zs idx).2.1 = deadCountL zs := by
  intro fuel
  induction fuel with
  | zero => intro budget zs idx; rfl
  | succ n ih =>
    intro budget zs idx
    unfold spawn_loop
    dsimp only
    split
    · rw [ih]
      unfold deadCountL
      rw [List.countP_append]
      have hhp := (spawn_zombie_spec g hg idx d hd).2
      simp [List.countP_singleton, not_le.2 hhp]
    · rfl

theorem spawn_phase_spec (g : ℕ → ℚ) (hg : ValidStream g) (idx : ℕ) (s : GameState)
    (ht : 0 ≤ s.episode_time_s) :
    (spawn_phase g idx s).1.player = s.player ∧
    (spawn_phase g idx s).1.stats = s.stats ∧
    (spawn_phase g idx s).1.bullets = s.bullets ∧
    (spawn_phase g idx s).1.upgrades = s.upgrades ∧
    (spawn_phase g idx s).1.obstacles = s.obstacles ∧
    (spawn_phase g idx s).1.play_state = s.play_state ∧
    (spawn_phase g idx s).1.episode_time_s = s.episode_time_s ∧
    (spawn_phase g idx s).1.upgrade_clock = s.upgrade_clock ∧
    ((∀ z ∈ s.zombies, posInArena z.pos) →
       ∀ z ∈ (spawn_phase g idx s).1.zombies, posInArena z.pos) ∧
    deadCountL (spawn_phase g idx s).1.zombies = deadCountL s.zombies := by
  have hd : 0 ≤ s.episode_time_s / 90 := by positivity
  refine ⟨rfl, rfl, rfl, rfl, rfl, rfl, rfl, rfl, ?_, ?_⟩
  · intro hz
    exact spawn_loop_pos g hg _ _ hd _ _ _ _ hz
  · exact spawn_loop_dead g hg _ _ hd _ _ _ _

theorem clock_phase_spec (s : GameState) :
    (clock_phase s).player = s.player ∧
    (clock_phase s).zombies = s.zombies ∧
    (clock_phase s).bullets = s.bullets ∧
    (clock_phase s).upgrades = s.upgrades ∧
    (clock_phase s).obstacles = s.obstacles ∧
    (clock_phase s).stats = s.stats ∧
    (clock_phase s).episode_time_s = s.episode_time_s + kFixedDt ∧
    (clock_phase s).play_state = (if s.upgrade_clock + kFixedDt ≥ 20
                                  then PlayState.ChoosingUpgrade else s.play_state) := by
  exact ⟨rfl, rfl, rfl, rfl, rfl, rfl, rfl, rfl⟩

theorem handle_choice_not_choosing (g : ℕ → ℚ) (a : Action) (s : SimState)
    (h : s.game.play_state ≠ PlayState.ChoosingUpgrade) :
    handle_upgrade_choice g a s = s := by
  unfold handle_upgrade_choice
  rw [if_pos h]

theorem handle_choice_invalid_frame (g : ℕ → ℚ) (a : Action) (s : SimState)
    (h : s.game.play_state = PlayState.ChoosingUpgrade)
    (hv : ¬ (0 ≤ a.upgrade_choice ∧ a.upgrade_choice ≤ 2))
    (hp : s.pause + 1 < kUpgradeChoiceTimeoutTicks) :
    handle_upgrade_choice g a s = { s with pause := s.pause + 1 } := by
  unfold handle_upgrade_choice
  rw [if_neg (by simp [h]), if_pos ⟨hv, hp⟩]

theorem handle_choice_apply (g : ℕ → ℚ) (a : Action) (s : SimState)
    (h : s.game.play_state = PlayState.ChoosingUpgrade)
    (hcase : ¬ (¬ (0 ≤ a.upgrade_choice ∧ a.upgrade_choice ≤ 2) ∧
                s.pause + 1 < kUpgradeChoiceTimeoutTicks)) :
    handle_upgrade_choice g a s =
      { game := { s.game with
                  upgrades := apply_upgrade s.game.upgrades
                    (offerGet s.game.upgrade_offer
                      (if 0 ≤ a.upgrade_choice ∧ a.upgrade_choice ≤ 2
                       then a.upgrade_choice else 0)),
                  play_state := PlayState.Playing,
                  upgrade_clock := 0,
                  upgrade_offer := (roll_upgrade_offer g s.rngIdx).1 },
        rngIdx := (roll_upgrade_offer g s.rngIdx).2, pause := 0,
        crossed := s.crossed } := by
  unfold handle_upgrade_choice
  rw [if_neg (by simp [h]), if_neg hcase]

/-!  ## apply_upgrade facts  -/

theorem apply_upgrade_levelsOk (u : UpgradeState) (id : UpgradeId) (h : LevelsOk u) :
    LevelsOk (apply_upgrade u id) := by
  unfold apply_upgrade
  split
  · exact h
  · cases id <;>
      (unfold LevelsOk at h ⊢
       simp only [UpgradeState.setLevel, UpgradeState.level] at h ⊢
       omega)

theorem apply_upgrade_extendedMag_mono (u : UpgradeState) (id : UpgradeId) :
    u.extendedMag ≤ (apply_upgrade u id).extendedMag := by
  unfold apply_upgrade
  split
  · exact le_refl _
  · cases id <;> simp only [UpgradeState.setLevel, UpgradeState.level] <;> omega

theorem apply_upgrade_flag (u : UpgradeState) (id : UpgradeId) :
    (apply_upgrade u id).second_wind_used = u.second_wind_used := by
  unfold apply_upgrade
  split
  · rfl
  · cases id <;> rfl

theorem apply_upgrade_increment (u : UpgradeState) (id : UpgradeId)
    (h : u.level id < maxStacksOf id) :
    (apply_upgrade u id).level id = u.level id + 1 ∧
    (∀ j, j ≠ id → (apply_upgrade u id).level j = u.level j) ∧
    (apply_upgrade u id).second_wind_used = u.second_wind_used := by
  unfold apply_upgrade
  rw [if_neg (not_le.2 h)]
  refine ⟨?_, ?_, ?_⟩
  · cases id <;> rfl
  · intro j hj
    cases id <;> cases j <;> first | (exact absurd rfl hj) | rfl
  · cases id <;> rfl

theorem apply_upgrade_noop (u : UpgradeState) (id : UpgradeId)
    (h : maxStacksOf id ≤ u.level id) : apply_upgrade u id = u := by
  unfold apply_upgrade
  rw [if_pos h]

theorem apply_upgrade_le_max (u : UpgradeState) (id i : UpgradeId)
    (h : u.level i ≤ maxStacksOf i) :
    (apply_upgrade u id).level i ≤ maxStacksOf i := by
  unfold apply_upgrade
  split
  · exact h
  · rename_i hlt
    by_cases hii : id = i
    · subst hii
      cases id <;> simp only [UpgradeState.setLevel, UpgradeState.level] at hlt h ⊢ <;> omega
    · cases id <;> cases i <;>
        first
          | (exact absurd rfl hii)
          | (simp only [UpgradeState.setLevel, UpgradeState.level] at h ⊢; omega)

/-!  ## miscellaneous helpers  -/

theorem deadCountL_congr {l l2 : List Zombie}
    (h : l2.map Zombie.hp = l.map Zombie.hp) : deadCountL l2 = deadCountL l := by
  have h1 : ∀ (m : List Zombie),
      m.countP (fun z => decide (z.hp ≤ 0))
        = (m.map Zombie.hp).countP (fun q => decide (q ≤ 0)) := by
    intro m
    rw [List.countP_map]
    rfl
  unfold deadCountL
  rw [h1, h1, h]

theorem death_phase_upgrades_cases (s : GameState) :
    (death_phase s).upgrades = s.upgrades ∨
    (death_phase s).upgrades = { s.upgrades with second_wind_used := true } := by
  unfold death_phase
  dsimp only
  repeat' split
  all_goals first | exact Or.inl rfl | exact Or.inr rfl

theorem update_player_bullets (a : Action) (s : GameState)
    (hb : 0 ≤ s.upgrades.bigShot) :
    ∀ b ∈ (update_player a s).bullets, b ∈ s.bullets ∨ 0 ≤ b.damage := by
  have hbq : (0 : ℚ) ≤ (s.upgrades.bigShot : ℚ) := by exact_mod_cast hb
  unfold update_player
  dsimp only
  repeat' split
  all_goals intro b hb2
  all_goals first
    | exact Or.inl hb2
    | (rcases List.mem_append.1 hb2 with h | h
       · exact Or.inl h
       · right
         simp only [List.mem_singleton] at h
         subst h
         dsimp only
         linarith)

theorem foldl_bullets_damage (obs : List Obstacle) (frost : ℤ) (bs : List Bullet)
    (acc : BulletPhase) (hbs : ∀ b ∈ bs, 0 ≤ b.damage)
    (hacc : ∀ b ∈ acc.bullets, 0 ≤ b.damage) :
    ∀ b ∈ (bs.foldl (process_bullet obs frost) acc).bullets, 0 ≤ b.damage := by
  induction bs generalizing acc with
  | nil => exact hacc
  | cons b t ih =>
    simp only [List.foldl_cons]
    apply ih
    · intro x hx; exact hbs x (List.mem_cons_of_mem _ hx)
    · have hb : 0 ≤ b.damage := hbs b (List.mem_cons_self _ _)
      unfold process_bullet
      dsimp only
      split
      · intro x hx
        rcases List.mem_append.1 hx with h | h
        · exact hacc x h
        · simp only [List.mem_singleton] at h
          subst h
          exact hb
      · intro x hx
        rcases List.mem_append.1 hx with h | h
        · exact hacc x h
        · simp only [List.mem_singleton] at h
          subst h
          obtain ⟨-, -, -, h4⟩ := bullet_zombie_loop_spec frost
            { b with pos := ⟨b.pos.x + b.vel.x * kFixedDt, b.pos.y + b.vel.y * kFixedDt⟩ }
            acc.zombies
          rw [h4]
          exact hb

theorem update_bullets_damage (s : GameState) (hd : ∀ b ∈ s.bullets, 0 ≤ b.damage) :
    ∀ b ∈ (update_bullets s).1.bullets, 0 ≤ b.damage := by
  intro b hb
  unfold update_bullets at hb
  dsimp only at hb
  have hbm := (List.mem_filter.1 hb).1
  exact foldl_bullets_damage s.obstacles s.upgrades.frostRounds s.bullets
    ⟨s.zombies, [], 0, 0, 0⟩ hd (by intro x hx; simp at hx) b hbm

/-!  ## Invariant preservation  -/

theorem playing_tick_inv (g : ℕ → ℚ) (hg : ValidStream g) (a : Action) (s : SimState)
    (hps : s.game.play_state = PlayState.Playing)
    (hz : ∀ z ∈ s.game.zombies, posInArena z.pos)
    (hmax : s.game.player.max_health = 100)
    (hst : 0 ≤ s.game.player.stamina)
    (hm : 0 ≤ s.game.player.mag) (hr : 0 ≤ s.game.player.reserve)
    (hmc : s.game.player.mag ≤ 12 + s.game.upgrades.extendedMag * 3)
    (hlv : LevelsOk s.game.upgrades)
    (hbd : ∀ b ∈ s.game.bullets, 0 ≤ b.damage)
    (hpause : s.pause < kUpgradeChoiceTimeoutTicks)
    (ht : 0 ≤ s.game.episode_time_s)
    (hobs : s.game.obstacles = init_obstacles)
    (hacct : s.game.stats.kills = (s.crossed : ℤ) - (deadCountL s.game.zombies : ℤ)) :
    Inv (playing_tick g a s) := by
  obtain ⟨l1, l2, l3, l4, l5, l6, l7, l8⟩ := hlv
  unfold playing_tick
  dsimp only
  obtain ⟨upA_zom, upA_upg, upA_obs, upA_ps, upA_time, upA_budget, upA_clock,
          upA_kills, upA_health, upA_maxh⟩ := update_player_frame a s.game
  have hposA := update_player_pos a s.game
  have hstA := update_player_stamina a s.game hst l7
  obtain ⟨hA_m, hA_r, hA_mc, hA_cap⟩ := update_player_ammo a s.game hm hr hmc
  have hbulA := update_player_bullets a s.game l2
  set A := update_player a s.game with hA
  obtain ⟨B_h, B_mh, B_st, B_m, B_r, B_mc, B_inv, B_bul, B_upg, B_obs, B_ps,
          B_time, B_budget, B_clock, B_stats⟩ := update_zombies_frame A
  obtain ⟨B_ppos, B_zpos⟩ := update_zombies_pos A
  have B_maphp := update_zombies_map_hp A
  set B := update_zombies A with hB
  have hbdB : ∀ b ∈ B.bullets, 0 ≤ b.damage := by
    rw [B_bul]
    intro b hb
    rcases hbulA b hb with h | h
    · exact hbd b h
    · exact h
  obtain ⟨C_pl, C_upg, C_obs, C_ps, C_time, C_budget, C_clock, C_zImp, C_kills,
          C_dead0⟩ := update_bullets_spec B hbdB
  have C_dmg := update_bullets_damage B hbdB
  set UB := update_bullets B with hUB
  obtain ⟨D_pl, D_stats, D_bul, D_upg, D_obs, D_ps, D_time, D_budget, D_clock,
          D_mappos, D_dead⟩ := apply_ring_of_fire_spec UB.1
  set RF := apply_ring_of_fire UB.1 with hRF
  obtain ⟨E_pos, E_mh, E_st, E_m, E_r, E_mc, E_inv, E_h0, E_upg, E_bul, E_obs,
          E_ps, E_time, E_budget, E_clock, E_kills, E_mappos, E_maphp⟩ :=
    contact_phase_spec RF.1
  set E := contact_phase RF.1 with hE
  have hEmh : E.player.max_health = 100 := by
    rw [E_mh, D_pl, C_pl, B_mh, upA_maxh, hmax]
  have hEps : E.play_state = PlayState.Playing := by
    rw [E_ps, D_ps, C_ps, B_ps, upA_ps, hps]
  obtain ⟨F_zom, F_stats, F_bul, F_obs, F_time, F_budget, F_clock, F_pos, F_mh,
          F_st, F_m, F_r, F_mc, Fu1, Fu2, Fu3, Fu4, Fu5, Fu6, Fu7, Fu8⟩ :=
    death_phase_frame E
  obtain ⟨F_or, F_iff, F_h0imp, F_sw⟩ := death_phase_state E hEmh hEps
  have F_ucases := death_phase_upgrades_cases E
  set F := death_phase E with hF
  have hFt : 0 ≤ F.episode_time_s := by
    rw [F_time, E_time, D_time, C_time, B_time, upA_time]; exact ht
  obtain ⟨G_pl, G_stats, G_bul, G_upg, G_obs, G_ps, G_time, G_clock, G_zImp,
          G_dead⟩ := spawn_phase_spec g hg s.rngIdx F hFt
  set SP := spawn_phase g s.rngIdx F with hSP
  obtain ⟨H_pl, H_zom, H_bul, H_upg, H_obs, H_stats, H_time, H_ps⟩ :=
    clock_phase_spec SP.1
  have hEupg : E.upgrades = s.game.upgrades := by
    rw [E_upg, D_upg, C_upg, B_upg, upA_upg]
  have hFlv : LevelsOk F.upgrades ∧
      F.upgrades.extendedMag = s.game.upgrades.extendedMag := by
    rcases F_ucases with hc | hc
    · rw [hc, hEupg]
      exact ⟨⟨l1, l2, l3, l4, l5, l6, l7, l8⟩, rfl⟩
    · rw [hc, hEupg]
      exact ⟨⟨l1, l2, l3, l4, l5, l6, l7, l8⟩, rfl⟩
  have hdeadB : deadCountL B.zombies = deadCountL s.game.zombies := by
    have h2 := @deadCountL_congr A.zombies B.zombies B_maphp
    rw [h2, upA_zom]
  have hdeadE : deadCountL E.zombies = deadCountL RF.1.zombies :=
    deadCountL_congr E_maphp
  have hdeadH : deadCountL (clock_phase SP.1).zombies = RF.2 := by
    rw [H_zom, G_dead, F_zom, hdeadE, D_dead, C_dead0]
    omega
  unfold Inv
  dsimp only
  refine ⟨?_, ?_, ?_, ?_, ?_, ?_, ?_, ?_, ?_, ?_, ?_, ?_, ?_, ?_, ?_, ?_, ?_⟩
  · rw [H_pl, G_pl, F_pos, E_pos, D_pl, C_pl]
    exact B_ppos
  · intro z hz2
    rw [H_zom] at hz2
    refine G_zImp ?_ z hz2
    rw [F_zom]
    refine forall_pos_of_map_pos_eq E_mappos ?_
    refine forall_pos_of_map_pos_eq D_mappos ?_
    exact C_zImp B_zpos
  · rw [H_pl, G_pl]
    exact F_h0imp E_h0
  · rw [H_pl, G_pl, F_mh, hEmh]
  · rw [H_pl, G_pl, F_st, E_st, D_pl, C_pl, B_st]
    exact hstA
  · rw [H_pl, G_pl, F_m, E_m, D_pl, C_pl, B_m]
    exact hA_m
  · rw [H_pl, G_pl, F_r, E_r, D_pl, C_pl, B_r]
    exact hA_r
  · rw [H_pl, G_pl, F_m, F_mc, E_m, E_mc, D_pl, C_pl, B_m, B_mc]
    exact hA_mc
  · rw [H_pl, G_pl, F_mc, E_mc, D_pl, C_pl, B_mc, H_upg, G_upg, hFlv.2, hA_cap]
  · rw [H_upg, G_upg]
    exact hFlv.1
  · rw [H_bul, G_bul, F_bul, E_bul, D_bul]
    exact C_dmg
  · intro hdead
    rw [H_ps] at hdead
    by_cases hclk : SP.1.upgrade_clock + kFixedDt ≥ 20
    · rw [if_pos hclk] at hdead
      exact absurd hdead (by simp)
    · rw [if_neg hclk, G_ps] at hdead
      have hFle : F.player.health ≤ 0 := F_iff.1 hdead
      have hFge : 0 ≤ F.player.health := F_h0imp E_h0
      constructor
      · rw [H_pl, G_pl]
        exact le_antisymm hFle hFge
      · intro hswpos
        rw [H_upg, G_upg] at hswpos ⊢
        exact F_sw hdead hswpos
  · exact hpause
  · rw [H_time, G_time]
    have hdt : (0 : ℚ) < kFixedDt := by norm_num [kFixedDt]
    linarith
  · rw [H_obs, G_obs, F_obs, E_obs, D_obs, C_obs, B_obs, upA_obs]
    exact hobs
  · rw [H_stats, G_stats, F_stats, E_kills, D_stats, C_kills, B_stats, upA_kills,
        hdeadB, hdeadH]
    omega
  · intro hplay
    rw [H_ps] at hplay
    by_cases hclk : SP.1.upgrade_clock + kFixedDt ≥ 20
    · rw [if_pos hclk] at hplay
      exact absurd hplay (by simp)
    · rw [if_neg hclk, G_ps] at hplay
      have hnd : ¬ (F.player.health ≤ 0) := by
        intro hle
        have hd : F.play_state = PlayState.Dead := F_iff.2 hle
        rw [hplay] at hd
        exact absurd hd (by simp)
      rw [H_pl, G_pl]
      exact not_le.mp hnd

theorem step_inv (g : ℕ → ℚ) (hg : ValidStream g) (s : SimState) (a : Action)
    (h : Inv s) : Inv (step g s a).1 := by
  obtain ⟨hpos, hz, hh, hmax, hst, hm, hr, hmagcap, hcap, hlv, hbd, hdead,
          hpause, ht, hobs, hacct, hplayh⟩ := h
  unfold step
  dsimp only
  by_cases hch : s.game.play_state = PlayState.ChoosingUpgrade
  · by_cases hiv : ¬ (0 ≤ a.upgrade_choice ∧ a.upgrade_choice ≤ 2) ∧
        s.pause + 1 < kUpgradeChoiceTimeoutTicks
    · rw [handle_choice_invalid_frame g a s hch hiv.1 hiv.2]
      have hnp : ({ s with pause := s.pause + 1 } : SimState).game.play_state
          ≠ PlayState.Playing := by
        rw [show ({ s with pause := s.pause + 1 } : SimState).game.play_state
            = s.game.play_state from rfl, hch]
        simp
      rw [if_neg hnp]
      exact ⟨hpos, hz, hh, hmax, hst, hm, hr, hmagcap, hcap, hlv, hbd, hdead,
             hiv.2, ht, hobs, hacct, hplayh⟩
    · rw [handle_choice_apply g a s hch hiv]
      rw [if_pos rfl]
      refine playing_tick_inv g hg a _ rfl hz hmax hst hm hr ?_ ?_ hbd ?_ ht hobs hacct
      · have hmono := apply_upgrade_extendedMag_mono s.game.upgrades
          (offerGet s.game.upgrade_offer
            (if 0 ≤ a.upgrade_choice ∧ a.upgrade_choice ≤ 2 then a.upgrade_choice else 0))
        rw [hcap] at hmagcap
        dsimp only
        omega
      · dsimp only
        exact apply_upgrade_levelsOk _ _ hlv
      · dsimp only
        norm_num [kUpgradeChoiceTimeoutTicks]
  · rw [handle_choice_not_choosing g a s hch]
    by_cases hpl : s.game.play_state = PlayState.Playing
    · rw [if_pos hpl]
      exact playing_tick_inv g hg a s hpl hz hmax hst hm hr
        (hcap ▸ hmagcap) hlv hbd hpause ht hobs hacct
    · rw [if_neg hpl]
      exact ⟨hpos, hz, hh, hmax, hst, hm, hr, hmagcap, hcap, hlv, hbd, hdead,
             hpause, ht, hobs, hacct, hplayh⟩

theorem inv_reset (g : ℕ → ℚ) (seed : ℕ) : Inv (resetState g seed) := by
  unfold Inv resetState
  dsimp only
  refine ⟨?_, ?_, ?_, ?_, ?_, ?_, ?_, ?_, ?_, ?_, ?_, ?_, ?_, ?_, ?_, ?_, ?_⟩
  · unfold posInArena
    norm_num [kPlayerSpawnX, kPlayerSpawnY, kArenaWidth, kArenaHeight]
  · intro z hz2
    simp at hz2
  · norm_num
  · rfl
  · norm_num
  · norm_num
  · norm_num
  · norm_num
  · rfl
  · unfold LevelsOk
    norm_num
  · intro b hb
    simp at hb
  · intro hc
    simp at hc
  · norm_num [kUpgradeChoiceTimeoutTicks]
  · norm_num
  · rfl
  · simp [deadCountL]
  · intro hp
    norm_num

theorem inv_runSim (g : ℕ → ℚ) (hg : ValidStream g) (seed : ℕ) (acts : List Action) :
    Inv (runSim g seed acts) := by
  unfold runSim
  suffices h : ∀ (s : SimState), Inv s →
      Inv (acts.foldl (fun s a => (step g s a).1) s) by
    exact h _ (inv_reset g seed)
  induction acts with
  | nil => intro s hs; exact hs
  | cons a t ih =>
    intro s hs
    simp only [List.foldl_cons]
    exact ih _ (step_inv g hg s a hs)

/-!  ## Observation length  -/

theorem zombie_feats_length (p : Player) :
    ∀ (n : ℕ) (l : List Zombie), (zombie_feats p n l).length = 5 * n := by
  intro n
  induction n with
  | zero =>
    intro l
    cases l <;> rfl
  | succ m ih =>
    intro l
    cases l with
    | nil =>
      rw [show zombie_feats p (m + 1) []
            = [0, 0, 1, 0, 0] ++ zombie_feats p m [] from rfl,
          List.length_append, ih]
      simp only [List.length_cons, List.length_nil]
      omega
    | cons z zs =>
      rw [show zombie_feats p (m + 1) (z :: zs)
            = zombie_block p z ++ zombie_feats p m zs from rfl,
          List.length_append, ih,
          show (zombie_block p z).length = 5 from rfl]
      omega

theorem ray_feats_length (s : GameState) :
    ∀ n : ℕ, (ray_feats s n).length = 2 * n := by
  intro n
  induction n with
  | zero => rfl
  | succ m ih =>
    rw [show ray_feats s (m + 1) = ray_feats s m ++ ray_pair s m from rfl,
        List.length_append, ih, show (ray_pair s m).length = 2 from rfl]
    omega

/-!  ## Bullet pierce and lifetime hits  -/

theorem bullet_zombie_loop_pierce_lower (frost : ℤ) (zs : List Zombie) :
    ∀ b : Bullet, 0 ≤ b.pierce →
      -1 ≤ (bullet_zombie_loop frost b zs).bullet.pierce := by
  induction zs with
  | nil =>
    intro b hb
    show -1 ≤ b.pierce
    omega
  | cons z t ih =>
    intro b hb
    unfold bullet_zombie_loop
    dsimp only
    split
    · split
      · dsimp only
        omega
      · rename_i hpos
        exact ih _ (by dsimp only; omega)
    · exact ih b hb

theorem bullet_zombie_loop_culled (frost : ℤ) (zs : List Zombie) :
    ∀ b : Bullet, 0 ≤ b.pierce →
      (bullet_zombie_loop frost b zs).bullet.pierce < 0 →
      bullet_culled (bullet_zombie_loop frost b zs).bullet = true := by
  induction zs with
  | nil =>
    intro b hb hneg
    dsimp only [bullet_zombie_loop] at hneg
    exact absurd hneg (not_lt.2 hb)
  | cons z t ih =>
    intro b hb hneg
    unfold bullet_zombie_loop at hneg ⊢
    dsimp only at hneg ⊢
    by_cases hc : vlength ⟨z.pos.x - b.pos.x, z.pos.y - b.pos.y⟩ ≤ 10 + b.radius
    · rw [if_pos hc] at hneg ⊢
      by_cases hp : ({ b with pierce := b.pierce - 1 } : Bullet).pierce < 0
      · rw [if_pos hp] at hneg ⊢
        dsimp only
        simp only [bullet_culled, decide_eq_true_eq]
        left
        norm_num
      · rw [if_neg hp] at hneg ⊢
        dsimp only at hneg ⊢
        dsimp only at hp
        exact ih _ (by dsimp only; omega) hneg
    · rw [if_neg hc] at hneg ⊢
      dsimp only at hneg ⊢
      exact ih b hb hneg

theorem lifeHits_of_neg (frost : ℤ) (zss : List (List Zombie)) (b : Bullet)
    (h : b.pierce < 0) : lifeHits frost b zss = 0 := by
  cases zss with
  | nil => rfl
  | cons zs rest =>
    unfold lifeHits
    rw [if_pos h]

theorem lifeHits_le (frost : ℤ) (zss : List (List Zombie)) :
    ∀ b : Bullet, 0 ≤ b.pierce → lifeHits frost b zss ≤ b.pierce + 1 := by
  induction zss with
  | nil =>
    intro b hb
    unfold lifeHits
    omega
  | cons zs rest ih =>
    intro b hb
    unfold lifeHits
    rw [if_neg (not_lt.2 hb)]
    obtain ⟨-, h2, h3, -⟩ := bullet_zombie_loop_spec frost b zs
    have hlow := bullet_zombie_loop_pierce_lower frost zs b hb
    by_cases hneg : (bullet_zombie_loop frost b zs).bullet.pierce < 0
    · rw [lifeHits_of_neg frost rest _ hneg]
      omega
    · have hrest := ih (bullet_zombie_loop frost b zs).bullet (not_lt.1 hneg)
      omega

/-!  ## Ammunition flow  -/

theorem update_player_ammo_flow (a : Action) (s : GameState) :
    ((update_player a s).player.mag + (update_player a s).player.reserve
        + (update_player a s).stats.shots_fired
      = s.player.mag + s.player.reserve + s.stats.shots_fired) ∧
    (a.reload = false →
     max 0 (s.player.reload_timer - kFixedDt) ≤ 0 →
     s.player.mag < 12 + s.upgrades.extendedMag * 3 →
     0 < s.player.reserve →
       (update_player a s).player.mag
           + ((update_player a s).stats.shots_fired - s.stats.shots_fired)
         = min (12 + s.upgrades.extendedMag * 3)
               (s.player.mag + s.player.reserve)) := by
  unfold update_player
  dsimp only
  constructor
  · repeat' split
    all_goals try dsimp only
    all_goals omega
  · intro hra hrt hmc hres
    have hnr : ¬ (a.reload = true ∧ max 0 (s.player.reload_timer - kFixedDt) ≤ 0 ∧
        s.player.mag < 12 + s.upgrades.extendedMag * 3 ∧ s.player.reserve > 0) := by
      intro hc
      rw [hra] at hc
      exact absurd hc.1 (by simp)
    rw [if_neg hnr]
    have hfl : max 0 (s.player.reload_timer - kFixedDt) ≤ 0 ∧
        s.player.mag < 12 + s.upgrades.extendedMag * 3 ∧ s.player.reserve > 0 :=
      ⟨hrt, hmc, hres⟩
    rw [if_pos hfl]
    repeat' split
    all_goals try dsimp only
    all_goals omega

theorem playing_tick_ammo (g : ℕ → ℚ) (a : Action) (s : SimState) :
    (playing_tick g a s).game.player.mag = (update_player a s.game).player.mag ∧
    (playing_tick g a s).game.player.reserve
      = (update_player a s.game).player.reserve ∧
    (playing_tick g a s).game.stats.shots_fired
      = (update_player a s.game).stats.shots_fired := by
  unfold playing_tick
  dsimp only
  set A := update_player a s.game with hA
  obtain ⟨-, -, -, B_m, B_r, -, -, -, -, -, -, -, -, -, B_stats⟩ :=
    update_zombies_frame A
  set B := update_zombies A with hB
  have C_pl : (update_bullets B).1.player = B.player := rfl
  have C_sf : (update_bullets B).1.stats.shots_fired = B.stats.shots_fired := rfl
  set UB := update_bullets B with hUB
  obtain ⟨D_pl, D_stats, -, -, -, -, -, -, -, -, -⟩ := apply_ring_of_fire_spec UB.1
  set RF := apply_ring_of_fire UB.1 with hRF
  obtain ⟨-, -, -, E_m, E_r, -, -, -, -, -, -, -, -, -, -, -, -, -⟩ :=
    contact_phase_spec RF.1
  have E_sf : (contact_phase RF.1).stats.shots_fired = RF.1.stats.shots_fired := rfl
  set E := contact_phase RF.1 with hE
  obtain ⟨-, F_stats, -, -, -, -, -, -, -, -, F_m, F_r, -, -, -, -, -, -, -, -,
          -⟩ := death_phase_frame E
  set F := death_phase E with hF
  have G_pl : (spawn_phase g s.rngIdx F).1.player = F.player := rfl
  have G_stats : (spawn_phase g s.rngIdx F).1.stats = F.stats := rfl
  set SP := spawn_phase g s.rngIdx F with hSP
  have H_pl : (clock_phase SP.1).player = SP.1.player := rfl
  have H_stats : (clock_phase SP.1).stats = SP.1.stats := rfl
  refine ⟨?_, ?_, ?_⟩
  · rw [H_pl, G_pl, F_m, E_m, D_pl, C_pl, B_m]
  · rw [H_pl, G_pl, F_r, E_r, D_pl, C_pl, B_r]
  · rw [H_stats, G_stats, F_stats, E_sf, D_stats, C_sf, B_stats]

/-!  ## Kill-count monotonicity  -/

theorem update_bullets_kills_mono (s : GameState) :
    s.stats.kills ≤ (update_bullets s).1.stats.kills := by
  unfold update_bullets
  dsimp only
  omega

theorem playing_tick_kills_mono (g : ℕ → ℚ) (a : Action) (s : SimState) :
    s.game.stats.kills ≤ (playing_tick g a s).game.stats.kills := by
  unfold playing_tick
  dsimp only
  obtain ⟨-, -, -, -, -, -, -, upA_kills, -, -⟩ := update_player_frame a s.game
  set A := update_player a s.game with hA
  obtain ⟨-, -, -, -, -, -, -, -, -, -, -, -, -, -, B_stats⟩ :=
    update_zombies_frame A
  set B := update_zombies A with hB
  have hmono := update_bullets_kills_mono B
  set UB := update_bullets B with hUB
  obtain ⟨-, D_stats, -, -, -, -, -, -, -, -, -⟩ := apply_ring_of_fire_spec UB.1
  set RF := apply_ring_of_fire UB.1 with hRF
  obtain ⟨-, -, -, -, -, -, -, -, -, -, -, -, -, -, -, E_kills, -, -⟩ :=
    contact_phase_spec RF.1
  set E := contact_phase RF.1 with hE
  obtain ⟨-, F_stats, -, -, -, -, -, -, -, -, -, -, -, -, -, -, -, -, -, -,
          -⟩ := death_phase_frame E
  set F := death_phase E with hF
  have G_stats : (spawn_phase g s.rngIdx F).1.stats = F.stats := rfl
  set SP := spawn_phase g s.rngIdx F with hSP
  have H_stats : (clock_phase SP.1).stats = SP.1.stats := rfl
  rw [H_stats, G_stats, F_stats, E_kills, D_stats]
  rw [B_stats, upA_kills] at hmono
  exact hmono

theorem step_kills_mono (g : ℕ → ℚ) (s : SimState) (a : Action) :
    s.game.stats.kills ≤ (step g s a).1.game.stats.kills := by
  unfold step
  dsimp only
  by_cases hch : s.game.play_state = PlayState.ChoosingUpgrade
  · by_cases hiv : ¬ (0 ≤ a.upgrade_choice ∧ a.upgrade_choice ≤ 2) ∧
        s.pause + 1 < kUpgradeChoiceTimeoutTicks
    · rw [handle_choice_invalid_frame g a s hch hiv.1 hiv.2]
      have hnp : ({ s with pause := s.pause + 1 } : SimState).game.play_state
          ≠ PlayState.Playing := by
        rw [show ({ s with pause := s.pause + 1 } : SimState).game.play_state
            = s.game.play_state from rfl, hch]
        simp
      rw [if_neg hnp]
      all_goals exact le_refl _
    · rw [handle_choice_apply g a s hch hiv, if_pos rfl]
      exact playing_tick_kills_mono g a _
  · rw [handle_choice_not_choosing g a s hch]
    by_cases hpl : s.game.play_state = PlayState.Playing
    · rw [if_pos hpl]
      exact playing_tick_kills_mono g a s
    · rw [if_neg hpl]
      all_goals exact le_refl _

theorem runSim_append (g : ℕ → ℚ) (seed : ℕ) (acts : List Action) (a : Action) :
    runSim g seed (acts ++ [a]) = (step g (runSim g seed acts) a).1 := by
  unfold runSim
  rw [List.foldl_append]
  rfl

/-!  ## Play-state and upgrade-level tracking through a tick  -/

theorem death_phase_play_cases (s : GameState) :
    (death_phase s).play_state = PlayState.Dead ∨
    (death_phase s).play_state = s.play_state := by
  unfold death_phase
  dsimp only
  repeat' split
  all_goals first | exact Or.inl rfl | exact Or.inr rfl

theorem playing_tick_upgrades_cases (g : ℕ → ℚ) (a : Action) (s : SimState) :
    (playing_tick g a s).game.upgrades = s.game.upgrades ∨
    (playing_tick g a s).game.upgrades
      = { s.game.upgrades with second_wind_used := true } := by
  unfold playing_tick
  dsimp only
  obtain ⟨-, upA_upg, -, -, -, -, -, -, -, -⟩ := update_player_frame a s.game
  set A := update_player a s.game with hA
  obtain ⟨-, -, -, -, -, -, -, -, B_upg, -, -, -, -, -, -⟩ :=
    update_zombies_frame A
  set B := update_zombies A with hB
  have C_upg : (update_bullets B).1.upgrades = B.upgrades := rfl
  set UB := update_bullets B with hUB
  obtain ⟨-, -, -, D_upg, -, -, -, -, -, -, -⟩ := apply_ring_of_fire_spec UB.1
  set RF := apply_ring_of_fire UB.1 with hRF
  have E_upg : (contact_phase RF.1).upgrades = RF.1.upgrades := rfl
  set E := contact_phase RF.1 with hE
  have F_ucases := death_phase_upgrades_cases E
  set F := death_phase E with hF
  have G_upg : (spawn_phase g s.rngIdx F).1.upgrades = F.upgrades := rfl
  set SP := spawn_phase g s.rngIdx F with hSP
  have H_upg : (clock_phase SP.1).upgrades = SP.1.upgrades := rfl
  rcases F_ucases with hc | hc
  · left
    rw [H_upg, G_upg, hc, E_upg, D_upg, C_upg, B_upg, upA_upg]
  · right
    rw [H_upg, G_upg, hc, E_upg, D_upg, C_upg, B_upg, upA_upg]

theorem playing_tick_level (g : ℕ → ℚ) (a : Action) (s : SimState)
    (i : UpgradeId) :
    (playing_tick g a s).game.upgrades.level i = s.game.upgrades.level i := by
  rcases playing_tick_upgrades_cases g a s with hc | hc
  · rw [hc]
  · rw [hc]
    cases i <;> rfl

theorem playing_tick_not_choosing (g : ℕ → ℚ) (a : Action) (s : SimState)
    (hps : s.game.play_state = PlayState.Playing)
    (hclk : s.game.upgrade_clock + kFixedDt < 20) :
    (playing_tick g a s).game.play_state ≠ PlayState.ChoosingUpgrade := by
  unfold playing_tick
  dsimp only
  obtain ⟨-, -, -, upA_ps, -, -, upA_clock, -, -, -⟩ := update_player_frame a s.game
  set A := update_player a s.game with hA
  obtain ⟨-, -, -, -, -, -, -, -, -, -, B_ps, -, -, B_clock, -⟩ :=
    update_zombies_frame A
  set B := update_zombies A with hB
  have C_ps : (update_bullets B).1.play_state = B.play_state := rfl
  have C_clock : (update_bullets B).1.upgrade_clock = B.upgrade_clock := rfl
  set UB := update_bullets B with hUB
  obtain ⟨-, -, -, -, -, D_ps, -, -, D_clock, -, -⟩ := apply_ring_of_fire_spec UB.1
  set RF := apply_ring_of_fire UB.1 with hRF
  have E_ps : (contact_phase RF.1).play_state = RF.1.play_state := rfl
  have E_clock : (contact_phase RF.1).upgrade_clock = RF.1.upgrade_clock := rfl
  set E := contact_phase RF.1 with hE
  have F_pc := death_phase_play_cases E
  obtain ⟨-, -, -, -, -, -, F_clock, -, -, -, -, -, -, -, -, -, -, -, -, -,
          -⟩ := death_phase_frame E
  set F := death_phase E with hF
  have G_ps : (spawn_phase g s.rngIdx F).1.play_state = F.play_state := rfl
  have G_clock : (spawn_phase g s.rngIdx F).1.upgrade_clock = F.upgrade_clock := rfl
  set SP := spawn_phase g s.rngIdx F with hSP
  have hclkSP : SP.1.upgrade_clock = s.game.upgrade_clock := by
    rw [G_clock, F_clock, E_clock, D_clock, C_clock, B_clock, upA_clock]
  have H_ps : (clock_phase SP.1).play_state
      = (if SP.1.upgrade_clock + kFixedDt ≥ 20 then PlayState.ChoosingUpgrade
         else SP.1.play_state) := rfl
  rw [H_ps, hclkSP, if_neg (not_le.2 hclk), G_ps]
  rcases F_pc with hc | hc
  · rw [hc]
    simp
  · rw [hc, E_ps, D_ps, C_ps, B_ps, upA_ps, hps]
    simp

/-!  ## Step-result flags  -/

theorem step_flags (g : ℕ → ℚ) (s : SimState) (a : Action) :
    ((step g s a).2.terminated = true ↔
       (step g s a).1.game.play_state = PlayState.Dead) ∧
    ((step g s a).2.truncated = true ↔
       (step g s a).1.game.episode_time_s ≥ kEpisodeLimitSeconds) := by
  unfold step
  dsimp only
  exact ⟨⟨fun h => of_decide_eq_true h, fun h => decide_eq_true h⟩,
         ⟨fun h => of_decide_eq_true h, fun h => decide_eq_true h⟩⟩

/-!  ## The claims  -/

/-- C1: for every seed and every finite action sequence, two runs that each
reset with that seed and then apply the actions in order produce identical
trajectories -- the reset observation and every step's observation, reward
and terminated/truncated flags.  The simulation is a pure function of the
seed and the action sequence: the only other input, the RNG draw stream, is
itself a function of the seed. -/
theorem c1_reset_step_determinism (seedStreams : ℕ → ℕ → ℚ) (s1 s2 : ℕ)
    (A1 A2 : List Action) (hs : s1 = s2) (hA : A1 = A2) :
    runTraceSeeded seedStreams s1 A1 = runTraceSeeded seedStreams s2 A2 := by
  rw [hs, hA]

/-- Witness: two runs with seed 5 and the one-step default-action sequence
coincide. -/
theorem c1_reset_step_determinism_witness :
    (5 : ℕ) = 5 ∧ ([({} : Action)] : List Action) = [({} : Action)] ∧
    runTraceSeeded (fun _ => zeroStream) 5 [({} : Action)]
      = runTraceSeeded (fun _ => zeroStream) 5 [({} : Action)] :=
  ⟨rfl, rfl,
   c1_reset_step_determinism (fun _ => zeroStream) 5 5 [({} : Action)]
     [({} : Action)] rfl rfl⟩

/-- C2: after any run of `reset` followed by an arbitrary action sequence,
the player position and every zombie position lie within the arena
rectangle [0, kArenaWidth] x [0, kArenaHeight], for every action sequence
and every valid RNG stream. -/
theorem c2_positions_in_arena (g : ℕ → ℚ) (hg : ValidStream g) (seed : ℕ)
    (acts : List Action) :
    posInArena (runSim g seed acts).game.player.pos ∧
    ∀ z ∈ (runSim g seed acts).game.zombies, posInArena z.pos := by
  obtain ⟨h1, h2, -, -, -, -, -, -, -, -, -, -, -, -, -, -, -⟩ :=
    inv_runSim g hg seed acts
  exact ⟨h1, h2⟩

/-- Witness: the bounds invariant at seed 3 after one default-action step. -/
theorem c2_positions_in_arena_witness :
    ValidStream zeroStream ∧
    (posInArena (runSim zeroStream 3 [{}]).game.player.pos ∧
     ∀ z ∈ (runSim zeroStream 3 [{}]).game.zombies, posInArena z.pos) :=
  ⟨zeroStream_valid, c2_positions_in_arena zeroStream zeroStream_valid 3 [{}]⟩

/-- C4: after any run of `reset` followed by an arbitrary action sequence,
the player's health, stamina, magazine count and reserve ammunition are all
nonnegative and the magazine count never exceeds the current magazine
capacity. -/
theorem c4_resource_bounds (g : ℕ → ℚ) (hg : ValidStream g) (seed : ℕ)
    (acts : List Action) :
    0 ≤ (runSim g seed acts).game.player.health ∧
    0 ≤ (runSim g seed acts).game.player.stamina ∧
    0 ≤ (runSim g seed acts).game.player.mag ∧
    0 ≤ (runSim g seed acts).game.player.reserve ∧
    (runSim g seed acts).game.player.mag
      ≤ (runSim g seed acts).game.player.mag_capacity := by
  obtain ⟨-, -, h3, -, h5, h6, h7, h8, -, -, -, -, -, -, -, -, -⟩ :=
    inv_runSim g hg seed acts
  exact ⟨h3, h5, h6, h7, h8⟩

/-- Witness: the resource bounds at seed 2 after one default-action step. -/
theorem c4_resource_bounds_witness :
    ValidStream zeroStream ∧
    (0 ≤ (runSim zeroStream 2 [{}]).game.player.health ∧
     0 ≤ (runSim zeroStream 2 [{}]).game.player.stamina ∧
     0 ≤ (runSim zeroStream 2 [{}]).game.player.mag ∧
     0 ≤ (runSim zeroStream 2 [{}]).game.player.reserve ∧
     (runSim zeroStream 2 [{}]).game.player.mag
       ≤ (runSim zeroStream 2 [{}]).game.player.mag_capacity) :=
  ⟨zeroStream_valid, c4_resource_bounds zeroStream zeroStream_valid 2 [{}]⟩

/-- C5 (corrected): after any run from `reset`, `stats.kills` equals the
number of hit-point crossings to ≤ 0 during the run MINUS the number of
dead zombies still in the zombie list (a zombie killed by the ring of fire
is only counted by `update_bullets` of the NEXT tick, so the original
equality with the crossing count alone fails; see the counterexample), and
`stats.kills` is monotonically non-decreasing from tick to tick. -/
theorem c5_kill_accounting (g : ℕ → ℚ) (hg : ValidStream g) (seed : ℕ)
    (acts : List Action) (a : Action) :
    ((runSim g seed acts).game.stats.kills
       = ((runSim g seed acts).crossed : ℤ)
         - (deadCountL (runSim g seed acts).game.zombies : ℤ)) ∧
    (runSim g seed acts).game.stats.kills
      ≤ (runSim g seed (acts ++ [a])).game.stats.kills := by
  obtain ⟨-, -, -, -, -, -, -, -, -, -, -, -, -, -, -, hacct, -⟩ :=
    inv_runSim g hg seed acts
  refine ⟨hacct, ?_⟩
  rw [runSim_append]
  exact step_kills_mono g (runSim g seed acts) a

/-- Witness: the kill accounting at seed 0 on the empty run and the
monotonicity into its first step. -/
theorem c5_kill_accounting_witness :
    ValidStream zeroStream ∧
    (((runSim zeroStream 0 []).game.stats.kills
        = ((runSim zeroStream 0 []).crossed : ℤ)
          - (deadCountL (runSim zeroStream 0 []).game.zombies : ℤ)) ∧
     (runSim zeroStream 0 []).game.stats.kills
       ≤ (runSim zeroStream 0 ([] ++ [({} : Action)])).game.stats.kills) :=
  ⟨zeroStream_valid,
   c5_kill_accounting zeroStream zeroStream_valid 0 [] ({} : Action)⟩

set_option maxRecDepth 20000 in
set_option maxHeartbeats 4000000 in
/-- The ring-of-fire kill lag: `c5state` satisfies the reachable-state
invariant, its kill counter agrees with its crossing count, and one tick
later a zombie has crossed to ≤ 0 hit points (inside the ring of fire)
while `stats.kills` is unchanged -- the claimed equality of `stats.kills`
with the crossing count fails on the post-step state. -/
theorem c5_counterexample :
    Inv c5state ∧ ValidStream zeroStream ∧
    c5state.game.stats.kills = (c5state.crossed : ℤ) ∧
    (step zeroStream c5state ({} : Action)).1.crossed = c5state.crossed + 1 ∧
    (step zeroStream c5state ({} : Action)).1.game.stats.kills
      = c5state.game.stats.kills :=
  ⟨by
     unfold Inv
     refine ⟨?_, ?_, ?_, ?_, ?_, ?_, ?_, ?_, ?_, ?_, ?_, ?_, ?_, ?_, rfl,
             ?_, ?_⟩
     all_goals with_unfolding_all decide,
   zeroStream_valid, by with_unfolding_all decide,
   by with_unfolding_all decide, by with_unfolding_all decide⟩

/-- C9: `build_observation` returns a vector of the declared fixed length
(96 = 11 + 5*8 + 2*16 + 2 + 3 + 8 for kZombieObsCount = 8, kRayCount = 16)
for EVERY state -- any number of zombies or bullets, any play state,
including the upgrade-choice and dead states. -/
theorem c9_observation_length (s : GameState) :
    (build_observation s).length = observation_dim := by
  unfold build_observation observation_dim
  dsimp only
  rw [List.length_append, List.length_append, List.length_append,
      List.length_append, List.length_append, zombie_feats_length,
      ray_feats_length]
  norm_num [kZombieObsCount, kRayCount]


/-- C3 (corrected): after a step from any state satisfying the reachable-
state invariant, `terminated = true` iff the player's health is ≤ 0 AND no
unused Second Wind revival is available AND the post-step play state is not
`ChoosingUpgrade` -- the last conjunct is missing from the original claim:
the 20-second offer clock (sim.cpp lines 398-401) overwrites the death
transition of the same tick, so a dead player with no revival can end a
step unterminated (see the counterexample).  `truncated = true` iff the
episode time has reached the 180-second limit. -/
theorem c3_termination_flag_semantics (g : ℕ → ℚ) (hg : ValidStream g)
    (s : SimState) (a : Action) (h : Inv s) :
    ((step g s a).2.terminated = true ↔
       ((step g s a).1.game.player.health ≤ 0 ∧
        ¬ (0 < (step g s a).1.game.upgrades.secondWind ∧
           (step g s a).1.game.upgrades.second_wind_used = false) ∧
        (step g s a).1.game.play_state ≠ PlayState.ChoosingUpgrade)) ∧
    ((step g s a).2.truncated = true ↔
       (step g s a).1.game.episode_time_s ≥ kEpisodeLimitSeconds) := by
  obtain ⟨hterm, htrunc⟩ := step_flags g s a
  obtain ⟨-, -, -, -, -, -, -, -, -, -, -, hdead, -, -, -, -, hplay⟩ :=
    step_inv g hg s a h
  refine ⟨?_, htrunc⟩
  rw [hterm]
  constructor
  · intro hd
    obtain ⟨hh0, hsw⟩ := hdead hd
    refine ⟨le_of_eq hh0, ?_, ?_⟩
    · rintro ⟨hc1, hc2⟩
      rw [hsw hc1] at hc2
      exact absurd hc2 (by simp)
    · rw [hd]
      simp
  · rintro ⟨hh0, -, hnch⟩
    cases hps : (step g s a).1.game.play_state with
    | Playing => exact absurd (hplay hps) (not_lt.2 hh0)
    | ChoosingUpgrade => exact absurd hps hnch
    | Dead => rfl

/-- Witness: the flag semantics after one default-action step from the
freshly reset state with seed 7. -/
theorem c3_termination_flag_semantics_witness :
    ValidStream zeroStream ∧ Inv (resetState zeroStream 7) ∧
    (((step zeroStream (resetState zeroStream 7) ({} : Action)).2.terminated
        = true ↔
       ((step zeroStream (resetState zeroStream 7) ({} : Action)).1.game.player.health
          ≤ 0 ∧
        ¬ (0 < (step zeroStream (resetState zeroStream 7) ({} : Action)).1.game.upgrades.secondWind ∧
           (step zeroStream (resetState zeroStream 7) ({} : Action)).1.game.upgrades.second_wind_used
             = false) ∧
        (step zeroStream (resetState zeroStream 7) ({} : Action)).1.game.play_state
          ≠ PlayState.ChoosingUpgrade)) ∧
     ((step zeroStream (resetState zeroStream 7) ({} : Action)).2.truncated
        = true ↔
       (step zeroStream (resetState zeroStream 7) ({} : Action)).1.game.episode_time_s
         ≥ kEpisodeLimitSeconds)) :=
  ⟨zeroStream_valid, inv_reset zeroStream 7,
   c3_termination_flag_semantics zeroStream zeroStream_valid
     (resetState zeroStream 7) ({} : Action) (inv_reset zeroStream 7)⟩

set_option maxRecDepth 20000 in
set_option maxHeartbeats 1000000 in
/-- The clock-override race: `c3state` (the zero-health upgrade-choice
state the race produces) satisfies the reachable-state invariant; after a
further step the player's health is still 0 and no unused Second Wind
exists, yet `terminated = false` -- the claimed iff between `terminated`
and "health ≤ 0 and no unused revival" is false. -/
theorem c3_counterexample :
    Inv c3state ∧ ValidStream zeroStream ∧
    (step zeroStream c3state ({} : Action)).1.game.player.health ≤ 0 ∧
    ¬ (0 < (step zeroStream c3state ({} : Action)).1.game.upgrades.secondWind ∧
       (step zeroStream c3state ({} : Action)).1.game.upgrades.second_wind_used
         = false) ∧
    (step zeroStream c3state ({} : Action)).2.terminated = false :=
  ⟨by
     unfold Inv
     refine ⟨?_, ?_, ?_, ?_, ?_, ?_, ?_, ?_, ?_, ?_, ?_, ?_, ?_, ?_, rfl,
             ?_, ?_⟩
     all_goals with_unfolding_all decide,
   zeroStream_valid,
   by with_unfolding_all decide, by with_unfolding_all decide,
   by with_unfolding_all decide⟩

/-- C6: `apply_upgrade` increments the chosen upgrade's stack level by
exactly 1 when below the catalog's max-stack value (touching no other
level and no flag), is a total no-op at or above the cap, and consequently
no sequence of `apply_upgrade` calls ever raises a level above its catalog
max-stack; the unique Second Wind upgrade never exceeds level 1. -/
theorem c6_upgrade_cap (st : UpgradeState) (id : UpgradeId)
    (hb : ∀ i, st.level i ≤ maxStacksOf i) :
    (st.level id < maxStacksOf id →
       (apply_upgrade st id).level id = st.level id + 1 ∧
       (∀ j, j ≠ id → (apply_upgrade st id).level j = st.level j) ∧
       (apply_upgrade st id).second_wind_used = st.second_wind_used) ∧
    (maxStacksOf id ≤ st.level id → apply_upgrade st id = st) ∧
    (∀ (ids : List UpgradeId) (i : UpgradeId),
       (ids.foldl apply_upgrade st).level i ≤ maxStacksOf i) ∧
    (∀ ids : List UpgradeId,
       (ids.foldl apply_upgrade st).level UpgradeId.SecondWind ≤ 1) := by
  have key : ∀ (ids : List UpgradeId) (u : UpgradeState),
      (∀ i, u.level i ≤ maxStacksOf i) →
      ∀ i, (ids.foldl apply_upgrade u).level i ≤ maxStacksOf i := by
    intro ids
    induction ids with
    | nil => intro u hu i; exact hu i
    | cons hd tl ih =>
      intro u hu i
      simp only [List.foldl_cons]
      exact ih (apply_upgrade u hd) (fun j => apply_upgrade_le_max u hd j (hu j)) i
  refine ⟨fun h => apply_upgrade_increment st id h,
          fun h => apply_upgrade_noop st id h,
          fun ids i => key ids st hb i,
          fun ids => key ids st hb UpgradeId.SecondWind⟩

/-- Witness: the cap behaviour at the fresh all-zero upgrade state and the
Second Wind card. -/
theorem c6_upgrade_cap_witness :
    (∀ i, ({} : UpgradeState).level i ≤ maxStacksOf i) ∧
    ((({} : UpgradeState).level .SecondWind < maxStacksOf .SecondWind →
       (apply_upgrade {} .SecondWind).level .SecondWind
         = ({} : UpgradeState).level .SecondWind + 1 ∧
       (∀ j, j ≠ UpgradeId.SecondWind →
          (apply_upgrade {} .SecondWind).level j = ({} : UpgradeState).level j) ∧
       (apply_upgrade {} .SecondWind).second_wind_used
         = ({} : UpgradeState).second_wind_used) ∧
     (maxStacksOf .SecondWind ≤ ({} : UpgradeState).level .SecondWind →
       apply_upgrade {} .SecondWind = {}) ∧
     (∀ (ids : List UpgradeId) (i : UpgradeId),
        (ids.foldl apply_upgrade {}).level i ≤ maxStacksOf i) ∧
     (∀ ids : List UpgradeId,
        (ids.foldl apply_upgrade {}).level UpgradeId.SecondWind ≤ 1)) :=
  ⟨fun i => by cases i <;> decide,
   c6_upgrade_cap {} .SecondWind (fun i => by cases i <;> decide)⟩

/-- C7 (corrected): in an upgrade-choice state, a step whose action carries
an upgrade choice outside {0,1,2} leaves the whole world state unchanged
and only bumps the invalid-tick counter -- UNTIL that counter reaches the
bounded timeout, at which point the code force-applies the FIRST offered
card, resumes play and resets the counter (the timeout variant of the
spec, so the unconditional frame property of the original claim fails; see
the counterexample). -/
theorem c7_invalid_choice (g : ℕ → ℚ) (s : SimState) (a : Action)
    (hch : s.game.play_state = PlayState.ChoosingUpgrade)
    (hinv : ¬ (0 ≤ a.upgrade_choice ∧ a.upgrade_choice ≤ 2)) :
    (s.pause + 1 < kUpgradeChoiceTimeoutTicks →
       (step g s a).1.game = s.game ∧
       (step g s a).1.pause = s.pause + 1 ∧
       (step g s a).1.rngIdx = s.rngIdx) ∧
    (kUpgradeChoiceTimeoutTicks ≤ s.pause + 1 →
       (step g s a).1.game.upgrades.level (offerGet s.game.upgrade_offer 0)
         = (apply_upgrade s.game.upgrades
             (offerGet s.game.upgrade_offer 0)).level
             (offerGet s.game.upgrade_offer 0) ∧
       (step g s a).1.game.play_state ≠ PlayState.ChoosingUpgrade ∧
       (step g s a).1.pause = 0) := by
  constructor
  · intro hp
    unfold step
    dsimp only
    rw [handle_choice_invalid_frame g a s hch hinv hp]
    have hnp : ({ s with pause := s.pause + 1 } : SimState).game.play_state
        ≠ PlayState.Playing := by
      rw [show ({ s with pause := s.pause + 1 } : SimState).game.play_state
          = s.game.play_state from rfl, hch]
      simp
    rw [if_neg hnp]
    exact ⟨rfl, rfl, rfl⟩
  · intro hp
    unfold step
    dsimp only
    rw [handle_choice_apply g a s hch (by intro hc; obtain ⟨-, h2⟩ := hc; omega)]
    rw [if_neg hinv, if_pos rfl]
    refine ⟨?_, ?_, ?_⟩
    · rw [playing_tick_level]
    · refine playing_tick_not_choosing g a _ rfl ?_
      show (0 : ℚ) + kFixedDt < 20
      norm_num [kFixedDt]
    · rfl

/-- Witness: one invalid-choice step from the pause-0 upgrade-choice state
only bumps the counter. -/
theorem c7_invalid_choice_witness :
    c7waitstate.game.play_state = PlayState.ChoosingUpgrade ∧
    ¬ (0 ≤ ({} : Action).upgrade_choice ∧ ({} : Action).upgrade_choice ≤ 2) ∧
    c7waitstate.pause + 1 < kUpgradeChoiceTimeoutTicks ∧
    ((step zeroStream c7waitstate ({} : Action)).1.game = c7waitstate.game ∧
     (step zeroStream c7waitstate ({} : Action)).1.pause
       = c7waitstate.pause + 1 ∧
     (step zeroStream c7waitstate ({} : Action)).1.rngIdx
       = c7waitstate.rngIdx) :=
  ⟨rfl, by decide, by decide,
   (c7_invalid_choice zeroStream c7waitstate ({} : Action) rfl
     (by decide)).1 (by decide)⟩

set_option maxRecDepth 20000 in
set_option maxHeartbeats 2000000 in
/-- The timeout force-apply: `c7state` satisfies the reachable-state
invariant and has 59 invalid ticks accumulated; one more invalid-choice
step changes the world state -- the first offered card (Ring of Fire) is
applied, play resumes and the invalid-tick counter resets -- refuting the
unconditional claim that an invalid choice leaves the state unchanged with
play_state still ChoosingUpgrade. -/
theorem c7_counterexample :
    Inv c7state ∧
    c7state.game.play_state = PlayState.ChoosingUpgrade ∧
    ¬ (0 ≤ ({} : Action).upgrade_choice ∧ ({} : Action).upgrade_choice ≤ 2) ∧
    (step zeroStream c7state ({} : Action)).1.game.upgrades.ringOfFire
      = c7state.game.upgrades.ringOfFire + 1 ∧
    (step zeroStream c7state ({} : Action)).1.game.play_state
      ≠ PlayState.ChoosingUpgrade ∧
    (step zeroStream c7state ({} : Action)).1.pause = 0 :=
  ⟨by
     unfold Inv
     refine ⟨?_, ?_, ?_, ?_, ?_, ?_, ?_, ?_, ?_, ?_, ?_, ?_, ?_, ?_, rfl,
             ?_, ?_⟩
     all_goals with_unfolding_all decide,
   rfl, by decide,
   by with_unfolding_all decide, by with_unfolding_all decide,
   by with_unfolding_all decide⟩

set_option maxRecDepth 20000 in
set_option maxHeartbeats 2000000 in
/-- C8: in the bullet-zombie contact loop of a tick, a bullet records at
most pierce+1 hits; a pierce-0 bullet records at most one hit and is
marked for removal as soon as it records one; over a whole lifetime
(successive ticks until the pierce counter drops below zero, after which
the bullet is culled) a bullet damages at most pierce+1 zombies; and the
concrete pierce-2 bullet `pierceBullet` damages 3 distinct zombies in a
single tick. -/
theorem c8_bullet_pierce (frost : ℤ) (b : Bullet) (zs : List Zombie)
    (zss : List (List Zombie)) (hp : 0 ≤ b.pierce) :
    (bullet_zombie_loop frost b zs).hits ≤ b.pierce + 1 ∧
    (b.pierce = 0 →
       (bullet_zombie_loop frost b zs).hits ≤ 1 ∧
       ((bullet_zombie_loop frost b zs).hits = 1 →
          bullet_culled (bullet_zombie_loop frost b zs).bullet = true)) ∧
    lifeHits frost b zss ≤ b.pierce + 1 ∧
    (pierceBullet.pierce = 2 ∧
     (process_bullet init_obstacles 0 ⟨threeZombies, [], 0, 0, 0⟩
        pierceBullet).hits = 3 ∧
     ∀ z ∈ (process_bullet init_obstacles 0 ⟨threeZombies, [], 0, 0, 0⟩
              pierceBullet).zombies, z.hp < 30) := by
  obtain ⟨-, h2, h3, -⟩ := bullet_zombie_loop_spec frost b zs
  have hlow := bullet_zombie_loop_pierce_lower frost zs b hp
  refine ⟨by omega, ?_, lifeHits_le frost zss b hp,
          by with_unfolding_all decide⟩
  intro h0
  constructor
  · omega
  · intro h1
    apply bullet_zombie_loop_culled frost zs b hp
    omega

/-- Witness: the pierce bound instantiated at the concrete pierce-2 bullet
meeting the three-zombie cluster, for one tick and for a one-tick
lifetime. -/
theorem c8_bullet_pierce_witness :
    (0 : ℤ) ≤ pierceBullet.pierce ∧
    ((bullet_zombie_loop 0 pierceBullet threeZombies).hits
       ≤ pierceBullet.pierce + 1 ∧
     (pierceBullet.pierce = 0 →
        (bullet_zombie_loop 0 pierceBullet threeZombies).hits ≤ 1 ∧
        ((bullet_zombie_loop 0 pierceBullet threeZombies).hits = 1 →
           bullet_culled (bullet_zombie_loop 0 pierceBullet threeZombies).bullet
             = true)) ∧
     lifeHits 0 pierceBullet [threeZombies] ≤ pierceBullet.pierce + 1 ∧
     (pierceBullet.pierce = 2 ∧
      (process_bullet init_obstacles 0 ⟨threeZombies, [], 0, 0, 0⟩
         pierceBullet).hits = 3 ∧
      ∀ z ∈ (process_bullet init_obstacles 0 ⟨threeZombies, [], 0, 0, 0⟩
               pierceBullet).zombies, z.hp < 30)) :=
  ⟨by decide,
   c8_bullet_pierce 0 pierceBullet threeZombies [threeZombies] (by decide)⟩

/-- C10 (corrected): in a Playing tick, ammunition is conserved --
magazine + reserve + total shots fired is unchanged by the step -- and
when the action does NOT request a reload while the decayed reload timer
is ≤ 0, the magazine is below capacity and the reserve is positive, the
magazine refills to min(capacity, magazine + reserve) (up to the shot
possibly fired the same tick).  The original claim's "regardless of
whether the action requested a reload" is false: a reload request re-arms
the delay timer in the same tick and blocks the transfer (see the
counterexample). -/
theorem c10_reload_refill (g : ℕ → ℚ) (s : SimState) (a : Action)
    (hps : s.game.play_state = PlayState.Playing) :
    ((step g s a).1.game.player.mag + (step g s a).1.game.player.reserve
        + (step g s a).1.game.stats.shots_fired
      = s.game.player.mag + s.game.player.reserve
        + s.game.stats.shots_fired) ∧
    (a.reload = false →
     max 0 (s.game.player.reload_timer - kFixedDt) ≤ 0 →
     s.game.player.mag < 12 + s.game.upgrades.extendedMag * 3 →
     0 < s.game.player.reserve →
       (step g s a).1.game.player.mag
           + ((step g s a).1.game.stats.shots_fired
               - s.game.stats.shots_fired)
         = min (12 + s.game.upgrades.extendedMag * 3)
               (s.game.player.mag + s.game.player.reserve)) := by
  have hstep : (step g s a).1 = playing_tick g a s := by
    unfold step
    dsimp only
    rw [handle_choice_not_choosing g a s (by rw [hps]; simp), if_pos hps]
  obtain ⟨hm, hr, hsf⟩ := playing_tick_ammo g a s
  obtain ⟨hcons, hfill⟩ := update_player_ammo_flow a s.game
  rw [hstep, hm, hr, hsf]
  exact ⟨hcons, hfill⟩

set_option maxRecDepth 20000 in
set_option maxHeartbeats 2000000 in
/-- Witness: the no-reload-request refill at `c10state`: the 5-round
magazine refills to 12 and ammunition is conserved. -/
theorem c10_reload_refill_witness :
    c10state.game.play_state = PlayState.Playing ∧
    ({} : Action).reload = false ∧
    max 0 (c10state.game.player.reload_timer - kFixedDt) ≤ 0 ∧
    c10state.game.player.mag < 12 + c10state.game.upgrades.extendedMag * 3 ∧
    0 < c10state.game.player.reserve ∧
    ((step zeroStream c10state ({} : Action)).1.game.player.mag
        + ((step zeroStream c10state ({} : Action)).1.game.stats.shots_fired
            - c10state.game.stats.shots_fired)
      = min (12 + c10state.game.upgrades.extendedMag * 3)
            (c10state.game.player.mag + c10state.game.player.reserve)) ∧
    ((step zeroStream c10state ({} : Action)).1.game.player.mag
        + (step zeroStream c10state ({} : Action)).1.game.player.reserve
        + (step zeroStream c10state ({} : Action)).1.game.stats.shots_fired
      = c10state.game.player.mag + c10state.game.player.reserve
        + c10state.game.stats.shots_fired) :=
  ⟨rfl, rfl, by with_unfolding_all decide, by decide, by decide,
   (c10_reload_refill zeroStream c10state ({} : Action) rfl).2 rfl
     (by with_unfolding_all decide) (by decide) (by decide),
   (c10_reload_refill zeroStream c10state ({} : Action) rfl).1⟩

set_option maxRecDepth 20000 in
set_option maxHeartbeats 2000000 in
/-- The reload-request block: at `c10state` (reload timer idle, magazine
5 < 12, reserve 100), a step whose action REQUESTS a reload leaves the
magazine at 5 instead of refilling it to min(12, 105) = 12 -- the request
re-arms the delay timer and blocks the transfer, refuting "the magazine is
refilled regardless of whether the action requested a reload". -/
theorem c10_counterexample :
    Inv c10state ∧
    c10state.game.play_state = PlayState.Playing ∧
    ({ reload := true } : Action).reload = true ∧
    max 0 (c10state.game.player.reload_timer - kFixedDt) ≤ 0 ∧
    c10state.game.player.mag < 12 + c10state.game.upgrades.extendedMag * 3 ∧
    0 < c10state.game.player.reserve ∧
    (step zeroStream c10state { reload := true }).1.game.player.mag
      = c10state.game.player.mag ∧
    (step zeroStream c10state { reload := true }).1.game.stats.shots_fired
      = c10state.game.stats.shots_fired ∧
    c10state.game.player.mag
      ≠ min (12 + c10state.game.upgrades.extendedMag * 3)
            (c10state.game.player.mag + c10state.game.player.reserve) :=
  ⟨by
     unfold Inv
     refine ⟨?_, ?_, ?_, ?_, ?_, ?_, ?_, ?_, ?_, ?_, ?_, ?_, ?_, ?_, rfl,
             ?_, ?_⟩
     all_goals with_unfolding_all decide,
   rfl, rfl, by with_unfolding_all decide,
   by decide, by decide, by with_unfolding_all decide,
   by with_unfolding_all decide, by decide⟩

end LastVector
